import Mathlib

/-!
Shallow embedding of the LVM2 device-identity registry (devices file),
translated from `src/tools/vgextend.c` (the device-id registry portion of the
file) and `src/lib/device/dev-mpath.c`.

Strings are modelled as `List Char`; the C string library functions used by
the source (`strstr`, `strchr`, `atoi`, the `%u.%u.%u` `sscanf` pattern) are
embedded below.  Fixed-size buffer bounds (`PATH_MAX`, `VERSION_LINE_MAX`)
are abstracted away: every modelled line is shorter than those bounds, and
`fgets` line framing is modelled by working with a list of newline-free
lines.  Heap allocation is assumed to succeed (the source's
allocation-failure warning paths are not modelled).
-/

/-- C `strstr`: the suffix of `s` starting at the first occurrence of `key`,
or `none` when `key` does not occur in `s`. -/
def strstr (s key : List Char) : Option (List Char) :=
  match s with
  | [] => if key = [] then some [] else none
  | c :: t => if key.isPrefixOf (c :: t) then some (c :: t) else strstr t key

/-- C `strchr`: the suffix of `s` starting at the first occurrence of the
character `c`. -/
def strchrSuffix (s : List Char) (c : Char) : Option (List Char) :=
  match s with
  | [] => none
  | a :: t => if a = c then some (a :: t) else strchrSuffix t c

/-- Characters kept by the copy loop of `_copy_idline_str`: it stops at
space, NUL and newline. -/
def goodChar (c : Char) : Bool :=
  !(c == (' ')) && !(c.toNat == 0) && !(c == ('\n'))

/-- `_copy_idline_str`: locate the first `=`, skip spaces after it, and copy
up to the next space, NUL or newline. -/
def copy_idline_str (src : List Char) : List Char :=
  match strchrSuffix src ('=') with
  | none => []
  | some rest => ((rest.drop 1).dropWhile (fun c => c == (' '))).takeWhile goodChar

/-- Decimal digit character with value `d` (used for `fprintf` `%d` and `%u`
conversions of nonnegative values). -/
def digitOf (d : Nat) : Char :=
  match d with
  | 0 => ('0')
  | 1 => ('1')
  | 2 => ('2')
  | 3 => ('3')
  | 4 => ('4')
  | 5 => ('5')
  | 6 => ('6')
  | 7 => ('7')
  | 8 => ('8')
  | _ => ('9')

/-- Helper for the decimal representation of a natural number. -/
def natCharsAux (n : Nat) (acc : List Char) : List Char :=
  if n < 10 then digitOf (n % 10) :: acc
  else natCharsAux (n / 10) (digitOf (n % 10) :: acc)
termination_by n
decreasing_by exact Nat.div_lt_self (by omega) (by omega)

/-- Decimal representation of a natural number, as printed by `fprintf`
with `%d`/`%u` for nonnegative values. -/
def natChars (n : Nat) : List Char :=
  natCharsAux n []

/-- Digit-accumulation loop of C `atoi`: consume decimal digits, stopping at
the first non-digit character. -/
def atoiLoop (acc : Nat) : List Char → Nat
  | [] => acc
  | c :: t => if c.isDigit then atoiLoop (10 * acc + (c.toNat - 48)) t else acc

/-- C `atoi` restricted to the nonnegative values stored by this code: skip
leading spaces, then accumulate decimal digits (sign handling is not
modelled; `PART` values are nonnegative partition numbers). -/
def atoiNat (s : List Char) : Nat :=
  atoiLoop 0 (s.dropWhile (fun c => c == (' ')))

/-- One `%u` conversion of `sscanf`: skip leading spaces, then read at least
one decimal digit; returns the value and the unconsumed rest. -/
def scanUInt (s : List Char) : Option (Nat × List Char) :=
  let s1 := s.dropWhile (fun c => c == (' '))
  let ds := s1.takeWhile (fun c => c.isDigit)
  if ds.isEmpty then none
  else some (atoiLoop 0 ds, s1.dropWhile (fun c => c.isDigit))

/-- `sscanf(version, "%u.%u.%u", &major, &minor, &counter) == 3`: parse
three dot-separated unsigned decimal integers; input after the third
integer is ignored, as `sscanf` ignores it. -/
def parseVersion (s : List Char) : Option (Nat × Nat × Nat) :=
  match scanUInt s with
  | none => none
  | some (a, r1) =>
    match r1 with
    | ('.') :: r2 =>
      match scanUInt r2 with
      | none => none
      | some (b, r3) =>
        match r3 with
        | ('.') :: r4 =>
          match scanUInt r4 with
          | none => none
          | some (c, _) => some (a, b, c)
        | _ => none
    | _ => none

/-- Device-ID type codes of `lib/device/device_id.h` (the header is not part
of this repository snapshot); only their distinctness and their being
nonzero matter to the modelled code, `0` plays the role of "no type". -/
def DEV_ID_TYPE_SYS_WWID : Nat := 1

/-- Device-ID type code: SCSI serial number. -/
def DEV_ID_TYPE_SYS_SERIAL : Nat := 2

/-- Device-ID type code: device name (the unstable fallback kind). -/
def DEV_ID_TYPE_DEVNAME : Nat := 3

/-- Device-ID type code: multipath DM UUID. -/
def DEV_ID_TYPE_MPATH_UUID : Nat := 4

/-- Device-ID type code: crypt DM UUID. -/
def DEV_ID_TYPE_CRYPT_UUID : Nat := 5

/-- Device-ID type code: LVM LV DM UUID. -/
def DEV_ID_TYPE_LVMLV_UUID : Nat := 6

/-- Device-ID type code: MD array UUID. -/
def DEV_ID_TYPE_MD_UUID : Nat := 7

/-- Device-ID type code: loop backing file. -/
def DEV_ID_TYPE_LOOP_FILE : Nat := 8

/-- `DEVICES_FILE_MAJOR` of `vgextend.c`. -/
def DEVICES_FILE_MAJOR : Nat := 1

/-- `DEVICES_FILE_MINOR` of `vgextend.c`. -/
def DEVICES_FILE_MINOR : Nat := 1

/-- `idtype_to_str`. -/
def idtype_to_str (idtype : Nat) : List Char :=
  if idtype = DEV_ID_TYPE_SYS_WWID then ("sys_wwid").data
  else if idtype = DEV_ID_TYPE_SYS_SERIAL then ("sys_serial").data
  else if idtype = DEV_ID_TYPE_DEVNAME then ("devname").data
  else if idtype = DEV_ID_TYPE_MPATH_UUID then ("mpath_uuid").data
  else if idtype = DEV_ID_TYPE_CRYPT_UUID then ("crypt_uuid").data
  else if idtype = DEV_ID_TYPE_LVMLV_UUID then ("lvmlv_uuid").data
  else if idtype = DEV_ID_TYPE_MD_UUID then ("md_uuid").data
  else if idtype = DEV_ID_TYPE_LOOP_FILE then ("loop_file").data
  else ("unknown").data

/-- `idtype_from_str`. -/
def idtype_from_str (s : List Char) : Nat :=
  if s = ("sys_wwid").data then DEV_ID_TYPE_SYS_WWID
  else if s = ("sys_serial").data then DEV_ID_TYPE_SYS_SERIAL
  else if s = ("devname").data then DEV_ID_TYPE_DEVNAME
  else if s = ("mpath_uuid").data then DEV_ID_TYPE_MPATH_UUID
  else if s = ("crypt_uuid").data then DEV_ID_TYPE_CRYPT_UUID
  else if s = ("lvmlv_uuid").data then DEV_ID_TYPE_LVMLV_UUID
  else if s = ("md_uuid").data then DEV_ID_TYPE_MD_UUID
  else if s = ("loop_file").data then DEV_ID_TYPE_LOOP_FILE
  else 0

/-- One row of the devices file (`struct dev_use`) without the matched-device
back-reference: `none` models a NULL pointer field, `idtype = 0` models an
absent type, `part = 0` a whole-disk entry. -/
structure DevUse where
  idtype : Nat
  idname : Option (List Char)
  devname : Option (List Char)
  pvid : Option (List Char)
  part : Nat
  deriving DecidableEq, Repr

/-- Field keys searched by `device_ids_read` via `strstr`. -/
def keyIDTYPE : List Char := ("IDTYPE").data

/-- Field key `IDNAME`. -/
def keyIDNAME : List Char := ("IDNAME").data

/-- Field key `DEVNAME`. -/
def keyDEVNAME : List Char := ("DEVNAME").data

/-- Field key `PVID`. -/
def keyPVID : List Char := ("PVID").data

/-- Field key `PART`. -/
def keyPART : List Char := ("PART").data

/-- The literal `.` value denoting an absent field in the devices file. -/
def dotVal : List Char := (".").data

/-- Entry-line parser of `device_ids_read` (the body of its line loop, after
the comment and header cases): locate each field key with `strstr`, copy its
value with `_copy_idline_str`, treat an empty value or a value starting with
`.` as absent.  Returns `none` when the line lacks `IDTYPE` or `IDNAME` (the
source skips such lines with a bare `continue` and emits no warning; its
only warnings on this path are for allocation failures, which this model
assumes never happen). -/
def parse_entry_line (line : List Char) : Option DevUse :=
  match strstr line keyIDTYPE, strstr line keyIDNAME with
  | some itp, some inp =>
    let devnp := strstr line keyDEVNAME
    let pvp := strstr line keyPVID
    let partp := strstr line keyPART
    let tbuf := copy_idline_str itp
    let nbuf := copy_idline_str inp
    some
      { idtype := if tbuf ≠ [] then idtype_from_str tbuf else 0
        idname := if nbuf ≠ [] ∧ nbuf.head? ≠ some ('.') then some nbuf else none
        devname :=
          match devnp with
          | some dp =>
            let b := copy_idline_str dp
            if b ≠ [] ∧ b.head? ≠ some ('.') then some b else none
          | none => none
        pvid :=
          match pvp with
          | some pp =>
            let b := copy_idline_str pp
            if b ≠ [] ∧ b.head? ≠ some ('.') then some b else none
          | none => none
        part :=
          match partp with
          | some pp =>
            let b := copy_idline_str pp
            if b ≠ [] ∧ b.head? ≠ some ('.') then atoiNat b else 0
          | none => 0 }
  | _, _ => none

/-- Accumulated result of the `device_ids_read` line loop: entries in file
order (`dm_list_add` appends at the tail), the values copied into the
process-global `_devices_file_systemid` and `_devices_file_version`
buffers, and the number of `log_warn` calls made. -/
structure ReadAcc where
  entries : List DevUse
  systemid : List Char
  version : List Char
  warns : Nat
  deriving DecidableEq, Repr

/-- One iteration of the `device_ids_read` line loop: skip comments, copy the
`SYSTEMID` and `VERSION` header values (warning on a system-id mismatch),
otherwise parse an entry line.  `localSysid` is `cmd->system_id`. -/
def read_line (localSysid : Option (List Char)) (acc : ReadAcc) (line : List Char) : ReadAcc :=
  if line.head? = some ('#') then acc
  else if ("SYSTEMID").data.isPrefixOf line then
    let sid := copy_idline_str line
    { acc with
      systemid := sid
      warns := acc.warns +
        (match localSysid with
         | none => if sid ≠ [] then 1 else 0
         | some s => if s ≠ sid then 1 else 0) }
  else if ("VERSION").data.isPrefixOf line then
    { acc with version := copy_idline_str line }
  else
    match parse_entry_line line with
    | some du => { acc with entries := acc.entries ++ [du] }
    | none => acc

/-- The whole `device_ids_read` line loop over the file's lines. -/
def read_lines (localSysid : Option (List Char)) (lines : List (List Char)) : ReadAcc :=
  lines.foldl (read_line localSysid) ⟨[], [], [], 0⟩

/-- Process state touched by `device_ids_read`: the command's configuration
and `use_devices` list and the process-global header buffers. -/
structure CmdState where
  enable_devices_file : Bool
  system_id : Option (List Char)
  use_devices : List DevUse
  systemid_buf : List Char
  version_buf : List Char
  deriving DecidableEq, Repr

/-- Result of `device_ids_read`: the new state, whether `fopen` was called on
the devices file, and the boolean return value. -/
structure ReadResult where
  state : CmdState
  opened : Bool
  ok : Bool
  deriving DecidableEq, Repr

/-- `device_ids_read`: immediately successful when the devices file is not
enabled or when `use_devices` is already non-empty (a prior read populated
it); otherwise open and parse the file (`file = none` models a failing
`fopen`). -/
def device_ids_read (st : CmdState) (file : Option (List (List Char))) : ReadResult :=
  if st.enable_devices_file = false then ⟨st, false, true⟩
  else if st.use_devices ≠ [] then ⟨st, false, true⟩
  else
    match file with
    | none => ⟨st, true, false⟩
    | some lines =>
      let acc := read_lines st.system_id lines
      ⟨{ st with
          use_devices := acc.entries
          systemid_buf := acc.systemid
          version_buf := acc.version }, true, true⟩

/-- The `du->idname ?: "."` choice of `device_ids_write`. -/
def write_idname : Option (List Char) → List Char
  | some n => n
  | none => dotVal

/-- The devname choice of `device_ids_write`: an entry of the in-memory
registry has no matched device, so `du->dev ? dev_name(du->dev) :
du->devname` resolves to `du->devname`, replaced by `.` when absent or not
starting with `/`. -/
def write_devname : Option (List Char) → List Char
  | some d => if d.head? = some ('/') then d else dotVal
  | none => dotVal

/-- The pvid choice of `device_ids_write`: `.` when absent, empty, or
already starting with a dot. -/
def write_pvid : Option (List Char) → List Char
  | some p => if p ≠ [] ∧ p.head? ≠ some ('.') then p else dotVal
  | none => dotVal

/-- Serialisation of one use-entry by `device_ids_write` (`fprintf` with the
fixed field order `IDTYPE IDNAME DEVNAME PVID [PART]`). -/
def write_entry_line (du : DevUse) : List Char :=
  ("IDTYPE=").data ++ idtype_to_str du.idtype ++
  (" IDNAME=").data ++ write_idname du.idname ++
  (" DEVNAME=").data ++ write_devname du.devname ++
  (" PVID=").data ++ write_pvid du.pvid ++
  (if du.part ≠ 0 then (" PART=").data ++ natChars du.part else [])

/-- `device_ids_write`: refuse (returning `none`, the file untouched) when a
version was read and it does not parse as `%u.%u.%u` or its major exceeds
`DEVICES_FILE_MAJOR`; otherwise emit the comment header, the optional
`SYSTEMID` line, a `VERSION` line with the counter incremented, and one line
per use-entry, and update the process-global version buffer exactly as the
source does from the written `VERSION` line.  The guards for a
disabled/pending devices file and `test_mode` (which skip writing but return
success) and OS-level I/O failures are outside this model; the dynamic parts
of the second comment line (pid, timestamp) are dropped since only its
leading `#` is ever inspected. -/
def sysidLines : Option (List Char) → List (List Char)
  | some s => [("SYSTEMID=").data ++ s]
  | none => []

def device_ids_write (system_id : Option (List Char)) (version_buf : List Char)
    (dus : List DevUse) : Option (List (List Char) × List Char) :=
  match (if version_buf.isEmpty then some (0, 0, 0) else parseVersion version_buf) with
  | none => none
  | some (dfMajor, _, dfCounter) =>
    if DEVICES_FILE_MAJOR < dfMajor then none
    else
      let vline := ("VERSION=").data ++ natChars DEVICES_FILE_MAJOR ++
        (('.') :: natChars DEVICES_FILE_MINOR) ++ (('.') :: natChars (dfCounter + 1))
      let header :=
        [("# LVM uses devices listed in this file.").data,
         ("# Created by LVM command").data] ++
        sysidLines system_id ++ [vline]
      some (header ++ dus.map write_entry_line, copy_idline_str vline)

/-- `device_ids_version_unchanged`: scan the on-disk file for the first
non-comment `VERSION` line and compare its copied value against the
remembered `_devices_file_version` buffer; a file with no version line
counts as changed. -/
def device_ids_version_unchanged (lines : List (List Char)) (version_buf : List Char) : Bool :=
  match lines with
  | [] => false
  | l :: t =>
    if l.head? = some ('#') then device_ids_version_unchanged t version_buf
    else if ("VERSION").data.isPrefixOf l then copy_idline_str l == version_buf
    else device_ids_version_unchanged t version_buf

/-- `_device_ids_update_try`: skip when the command expects a missing VG
device; otherwise take the devices-file lock with a non-blocking exclusive
request (`lockOk` is the `lock_devices_file_try` outcome) and call
`device_ids_write` only when `device_ids_version_unchanged` holds for the
current on-disk contents.  Returns `true` exactly when `device_ids_write` is
invoked. -/
def device_ids_update_try (expectMissing lockOk : Bool) (onDisk : List (List Char))
    (version_buf : List Char) : Bool :=
  if expectMissing then false
  else if lockOk = false then false
  else device_ids_version_unchanged onDisk version_buf

/-- C10: a second `device_ids_read` in the same process is a no-op: with
`use_devices` already populated it returns success without opening the file
and leaves the whole registry state unchanged. -/
theorem device_ids_read_idempotent (st : CmdState) (file : Option (List (List Char)))
    (h : st.use_devices ≠ []) : device_ids_read st file = ⟨st, false, true⟩ := by
  unfold device_ids_read
  by_cases he : st.enable_devices_file = false
  · simp [he]
  · simp [he, h]

/-- C10 witness: a populated registry state is returned unchanged. -/
theorem device_ids_read_idempotent_witness :
    device_ids_read
      ⟨true, none, [⟨1, some (("w1").data), none, none, 0⟩], [], ("1.1.5").data⟩
      (some [("IDTYPE=sys_wwid IDNAME=w2 DEVNAME=/dev/sdb PVID=x1 PART=2").data]) =
      ⟨⟨true, none, [⟨1, some (("w1").data), none, none, 0⟩], [], ("1.1.5").data⟩, false, true⟩ :=
  device_ids_read_idempotent _ _ (by decide)

/-- C6: `device_ids_write` refuses to write — returning failure before any
file is opened or touched — whenever a version line was read and either it
does not parse as three unsigned integers `M.m.c` or its major number
exceeds `DEVICES_FILE_MAJOR`. -/
theorem device_ids_write_refuses (sysid : Option (List Char)) (v : List Char)
    (dus : List DevUse) (hne : v ≠ [])
    (h : parseVersion v = none ∨ ∃ M m c, parseVersion v = some (M, m, c) ∧ DEVICES_FILE_MAJOR < M) :
    device_ids_write sysid v dus = none := by
  unfold device_ids_write
  have hvE : v.isEmpty = false := by
    cases v with
    | nil => exact absurd rfl hne
    | cons a t => rfl
  rcases h with h | ⟨M, m, c, hp, hM⟩
  · simp [hvE, h]
  · simp [hvE, hp, hM]

/-- C6 witness: a remembered version `2.0.0` (major above the supported `1`)
makes the write refuse, and so does an unparseable version `junk`. -/
theorem device_ids_write_refuses_witness :
    device_ids_write none (("2.0.0").data) [] = none ∧
    device_ids_write none (("junk").data) [] = none :=
  ⟨device_ids_write_refuses none (("2.0.0").data) [] (by decide)
    (Or.inr ⟨2, 0, 0, by decide, by decide⟩),
   device_ids_write_refuses none (("junk").data) [] (by decide) (Or.inl (by decide))⟩

/-- Structure of a successful `device_ids_version_unchanged`: the first
non-comment `VERSION` line of the file exists and its copied value is
exactly the remembered version buffer. -/
theorem version_unchanged_spec (lines : List (List Char)) (v : List Char)
    (h : device_ids_version_unchanged lines v = true) :
    ∃ pre w rest, lines = pre ++ w :: rest ∧ w.head? ≠ some ('#') ∧
      ("VERSION").data.isPrefixOf w = true ∧ copy_idline_str w = v ∧
      ∀ u ∈ pre, u.head? = some ('#') ∨ ("VERSION").data.isPrefixOf u = false := by
  induction lines with
  | nil => exact absurd h (by simp [device_ids_version_unchanged])
  | cons l t ih =>
    unfold device_ids_version_unchanged at h
    by_cases hc : l.head? = some ('#')
    · rw [if_pos hc] at h
      obtain ⟨pre, w, rest, h1, h2, h3, h4, h5⟩ := ih h
      refine ⟨l :: pre, w, rest, by rw [h1]; rfl, h2, h3, h4, ?_⟩
      intro u hu
      rcases List.mem_cons.mp hu with hu | hu
      · exact Or.inl (hu ▸ hc)
      · exact h5 u hu
    · rw [if_neg hc] at h
      by_cases hv : ("VERSION").data.isPrefixOf l = true
      · rw [if_pos hv] at h
        exact ⟨[], l, t, rfl, hc, hv, by simpa using h, by simp⟩
      · rw [if_neg hv] at h
        obtain ⟨pre, w, rest, h1, h2, h3, h4, h5⟩ := ih h
        refine ⟨l :: pre, w, rest, by rw [h1]; rfl, h2, h3, h4, ?_⟩
        intro u hu
        rcases List.mem_cons.mp hu with hu | hu
        · exact Or.inr (hu ▸ Bool.eq_false_iff.mpr hv)
        · exact h5 u hu

/-- C4: a best-effort (validation-time) devices-file update writes only
after taking the non-blocking exclusive lock, and only when the first
non-comment `VERSION` line now on disk still carries exactly the value the
command first read into its version buffer; when the lock is busy or the
version changed, `device_ids_write` is never invoked. -/
theorem update_try_guard (expectMissing lockOk : Bool) (onDisk : List (List Char))
    (v : List Char) (h : device_ids_update_try expectMissing lockOk onDisk v = true) :
    lockOk = true ∧
    ∃ pre w rest, onDisk = pre ++ w :: rest ∧ w.head? ≠ some ('#') ∧
      ("VERSION").data.isPrefixOf w = true ∧ copy_idline_str w = v ∧
      ∀ u ∈ pre, u.head? = some ('#') ∨ ("VERSION").data.isPrefixOf u = false := by
  unfold device_ids_update_try at h
  by_cases he : expectMissing
  · simp [he] at h
  · rw [if_neg he] at h
    by_cases hl : lockOk = false
    · simp [hl] at h
    · rw [if_neg hl] at h
      exact ⟨by simpa using hl, version_unchanged_spec onDisk v h⟩

/-- Concrete on-disk devices file used by the C4 witness. -/
def onDiskW : List (List Char) :=
  [("# LVM uses devices listed in this file.").data,
   ("SYSTEMID=hostb").data,
   ("VERSION=1.1.7").data,
   ("IDTYPE=sys_wwid IDNAME=naa.123 DEVNAME=/dev/sda PVID=abc1 PART=2").data]

/-- C4 witness: with the lock obtained and an on-disk file whose `VERSION`
line matches the remembered buffer, the update proceeds and the guard
theorem recovers the lock and the matching version line. -/
theorem update_try_guard_witness :
    (true : Bool) = true ∧
    ∃ pre w rest, onDiskW = pre ++ w :: rest ∧ w.head? ≠ some ('#') ∧
      ("VERSION").data.isPrefixOf w = true ∧ copy_idline_str w = ("1.1.7").data ∧
      ∀ u ∈ pre, u.head? = some ('#') ∨ ("VERSION").data.isPrefixOf u = false :=
  update_try_guard false true onDiskW (("1.1.7").data) (by decide)

/-- When `key` is a prefix of `s`, `strstr` returns `s` itself. -/
theorem strstr_of_pre (s key : List Char) (h : key.isPrefixOf s = true) :
    strstr s key = some s := by
  cases s with
  | nil =>
    have : key = [] := by
      cases key with
      | nil => rfl
      | cons a t => simp [List.isPrefixOf] at h
    simp [strstr, this]
  | cons c t => simp [strstr, h]

/-- No occurrence of `key` starts inside `a` when scanning `a ++ b`. -/
def noOcc (key a b : List Char) : Prop :=
  ∀ i, i < a.length → key.isPrefixOf (a.drop i ++ b) = false

/-- `strstr` skips a block in which no occurrence starts. -/
theorem strstr_append_right (key a b : List Char) (h : noOcc key a b) :
    strstr (a ++ b) key = strstr b key := by
  induction a with
  | nil => rfl
  | cons c t ih =>
    have h0 : key.isPrefixOf (c :: (t ++ b)) = false := by
      have := h 0 (by simp)
      simpa using this
    have hni : ¬ (key.isPrefixOf (c :: (t ++ b)) = true) := by simp [h0]
    have : strstr ((c :: t) ++ b) key = strstr (t ++ b) key := by
      simp only [List.cons_append, strstr, List.append_eq, if_neg hni]
    rw [this]
    exact ih (fun i hi => by
      have := h (i + 1) (by simpa using Nat.succ_lt_succ hi)
      simpa using this)

/-- A failing `strstr` means `key` is a prefix of no suffix of `s`. -/
theorem strstr_none_not_pre (s key : List Char) (h : strstr s key = none) :
    ∀ i, key.isPrefixOf (s.drop i) = false := by
  induction s with
  | nil =>
    intro i
    have hk : ¬ key = [] := by
      intro hk
      simp [strstr, hk] at h
    cases key with
    | nil => exact absurd rfl hk
    | cons a t => simp [List.isPrefixOf]
  | cons c t ih =>
    intro i
    unfold strstr at h
    by_cases hp : key.isPrefixOf (c :: t) = true
    · simp [hp] at h
    · cases i with
      | zero => simpa using Bool.eq_false_iff.mpr hp
      | succ j =>
        have ht : strstr t key = none := by
          rcases hE : strstr t key with _ | v
          · rfl
          · rw [Bool.eq_false_iff.mpr hp] at h
            simp [hE] at h
        simpa using ih ht j

/-- Conversely, `strstr` fails when `key` is a prefix of no suffix. -/
theorem strstr_none_of_no_pre (s key : List Char)
    (h : ∀ i, key.isPrefixOf (s.drop i) = false) : strstr s key = none := by
  induction s with
  | nil =>
    have h0 := h 0
    have : ¬ key = [] := by
      intro hk
      subst hk
      simp [List.isPrefixOf] at h0
    simp [strstr, this]
  | cons c t ih =>
    have h0 : key.isPrefixOf (c :: t) = false := by simpa using h 0
    have ht : strstr t key = none := ih (fun i => by simpa using h (i + 1))
    simp [strstr, h0, ht]

/-- If no full occurrence of `key` lies inside `seg` and the first character
of `rest` does not appear in `key`, then no occurrence of `key` starts
inside `seg` when scanning `seg ++ rest`. -/
theorem noOcc_of_none (key seg rest : List Char) (hseg : strstr seg key = none)
    (hrest : ∀ c, rest.head? = some c → c ∉ key) : noOcc key seg rest := by
  intro i hi
  by_contra hpre
  have hpre' : key <+: (seg.drop i ++ rest) := by
    have : key.isPrefixOf (seg.drop i ++ rest) = true := by
      cases hE : key.isPrefixOf (seg.drop i ++ rest)
      · exact absurd hE hpre
      · rfl
    exact List.isPrefixOf_iff_prefix.mp this
  by_cases hlen : key.length ≤ (seg.drop i).length
  · have hd : (seg.drop i) <+: (seg.drop i ++ rest) := List.prefix_append _ _
    have hkd : key <+: seg.drop i := List.prefix_of_prefix_length_le hpre' hd hlen
    have hbt : key.isPrefixOf (seg.drop i) = true := List.isPrefixOf_iff_prefix.mpr hkd
    have hbf := strstr_none_not_pre seg key hseg i
    rw [hbf] at hbt
    exact Bool.false_ne_true hbt
  · push_neg at hlen
    have hd : (seg.drop i) <+: (seg.drop i ++ rest) := List.prefix_append _ _
    have hdk : seg.drop i <+: key :=
      List.prefix_of_prefix_length_le hd hpre' (Nat.le_of_lt hlen)
    obtain ⟨k2, hk2⟩ := hdk
    have hk2ne : k2 ≠ [] := by
      intro hk
      subst hk
      simp at hk2
      rw [hk2] at hlen
      exact lt_irrefl _ hlen
    have hk2pre : k2 <+: rest := by
      have : seg.drop i ++ k2 <+: seg.drop i ++ rest := by rw [hk2]; exact hpre'
      exact (List.prefix_append_right_inj _).mp this
    cases k2 with
    | nil => exact absurd rfl hk2ne
    | cons c k3 =>
      have hhead : rest.head? = some c := by
        obtain ⟨r2, hr2⟩ := hk2pre
        rw [← hr2]
        rfl
      have hmem : c ∈ key := by
        rw [← hk2]
        simp
      exact hrest c hhead hmem

/-- `strstr` over a concatenation skips a `key`-free block whose right
context starts with a character not appearing in `key`. -/
theorem strstr_skip_seg (key seg rest : List Char) (hseg : strstr seg key = none)
    (hrest : ∀ c, rest.head? = some c → c ∉ key) :
    strstr (seg ++ rest) key = strstr rest key :=
  strstr_append_right key seg rest (noOcc_of_none key seg rest hseg hrest)

/-- `strstr` steps over a single character not appearing in a nonempty
`key`. -/
theorem strstr_cons_skip (key : List Char) (c : Char) (w : List Char)
    (hk : key ≠ []) (hc : c ∉ key) : strstr (c :: w) key = strstr w key := by
  cases key with
  | nil => exact absurd rfl hk
  | cons k0 kt =>
    have : (k0 == c) = false := by
      have : k0 ≠ c := by
        intro he
        exact hc (he ▸ List.mem_cons_self k0 kt)
      simpa using this
    simp [strstr, List.isPrefixOf, this]

/-- A list whose characters all satisfy `p` contains no occurrence of a
`key` headed by a character failing `p`. -/
theorem strstr_none_of_all_pred (p : Char → Bool) (s key : List Char) (c : Char)
    (hc : key.head? = some c) (hs : s.all p = true) (hcp : p c = false) :
    strstr s key = none := by
  induction s with
  | nil =>
    have : ¬ key = [] := by
      intro hk
      subst hk
      simp at hc
    simp [strstr, this]
  | cons a t ih =>
    have hall := List.all_eq_true.mp hs
    have hpa : p a = true := hall a (by simp)
    have ht : strstr t key = none := by
      refine ih ?_
      exact List.all_eq_true.mpr (fun x hx => hall x (by simp [hx]))
    cases key with
    | nil => simp at hc
    | cons k0 kt =>
      have hk0 : k0 = c := by simpa using hc
      have : (k0 == a) = false := by
        subst hk0
        have : k0 ≠ a := by
          intro he
          rw [he] at hcp
          rw [hpa] at hcp
          exact Bool.true_eq_false ▸ hcp.symm ▸ (by simp at hcp)
        simpa using this
      simp [strstr, List.isPrefixOf, this, ht]

/-- A serialised entry line viewed as `KEY=value` tokens separated by single
spaces (the shape produced by the `fprintf` format strings of
`device_ids_write`). -/
def joinToks : List (List Char × List Char) → List Char
  | [] => []
  | (k, v) :: [] => k ++ (('=') :: v)
  | (k, v) :: kv :: rest => k ++ (('=') :: (v ++ ((' ') :: joinToks (kv :: rest))))

/-- Unfolding of `joinToks` at a non-final token. -/
theorem joinToks_cons (k v : List Char) (rest : List (List Char × List Char))
    (h : rest ≠ []) :
    joinToks ((k, v) :: rest) = k ++ (('=') :: (v ++ ((' ') :: joinToks rest))) := by
  cases rest with
  | nil => exact absurd rfl h
  | cons kv r => rfl

/-- The head of a cons is not in `key` when its head character is not. -/
theorem head_notin (c0 : Char) (w key : List Char) (h : c0 ∉ key) :
    ∀ c, (c0 :: w).head? = some c → c ∉ key := by
  intro c hc
  rw [List.head?_cons] at hc
  cases hc
  exact h

/-- Locating a field key inside a serialised token line: provided the key
occurs in no earlier token key or value, `strstr` returns the suffix
starting at that key's own token. -/
theorem strstr_joinToks_found (key v : List Char) (pre rest : List (List Char × List Char))
    (hk : key ≠ []) (hsp : (' ') ∉ key) (heq : ('=') ∉ key)
    (hpre : ∀ kv ∈ pre, strstr kv.1 key = none ∧ strstr kv.2 key = none) :
    strstr (joinToks (pre ++ (key, v) :: rest)) key = some (joinToks ((key, v) :: rest)) := by
  induction pre with
  | nil =>
    rw [List.nil_append]
    have hsh : ∃ z, joinToks ((key, v) :: rest) = key ++ z := by
      cases rest with
      | nil => exact ⟨(('=') :: v), rfl⟩
      | cons kv r => exact ⟨(('=') :: (v ++ ((' ') :: joinToks (kv :: r)))), rfl⟩
    obtain ⟨z, hz⟩ := hsh
    rw [hz]
    exact strstr_of_pre _ _ (List.isPrefixOf_iff_prefix.mpr (List.prefix_append key z))
  | cons kv0 pre' ih =>
    obtain ⟨k0, v0⟩ := kv0
    have hrne : pre' ++ (key, v) :: rest ≠ [] := by simp
    rw [List.cons_append, joinToks_cons k0 v0 _ hrne]
    have h0 := hpre (k0, v0) (by simp)
    rw [strstr_skip_seg key k0 _ h0.1 (head_notin ('=') _ key heq)]
    rw [strstr_cons_skip key ('=') _ hk heq]
    rw [strstr_skip_seg key v0 _ h0.2 (head_notin (' ') _ key hsp)]
    rw [strstr_cons_skip key (' ') _ hk hsp]
    exact ih (fun kv hkv => hpre kv (by simp [hkv]))

/-- A field key occurring in no token key or value of a serialised line is
not found in it at all. -/
theorem strstr_joinToks_none (key : List Char) (toks : List (List Char × List Char))
    (hk : key ≠ []) (hsp : (' ') ∉ key) (heq : ('=') ∉ key)
    (hall : ∀ kv ∈ toks, strstr kv.1 key = none ∧ strstr kv.2 key = none) :
    strstr (joinToks toks) key = none := by
  induction toks with
  | nil =>
    have : ¬ key = [] := hk
    simp [joinToks, strstr, this]
  | cons kv0 rest ih =>
    obtain ⟨k0, v0⟩ := kv0
    have h0 := hall (k0, v0) (by simp)
    cases rest with
    | nil =>
      show strstr (k0 ++ (('=') :: v0)) key = none
      rw [strstr_skip_seg key k0 _ h0.1 (head_notin ('=') _ key heq)]
      rw [strstr_cons_skip key ('=') _ hk heq]
      exact h0.2
    | cons kv1 rest' =>
      rw [joinToks_cons k0 v0 _ (by simp)]
      rw [strstr_skip_seg key k0 _ h0.1 (head_notin ('=') _ key heq)]
      rw [strstr_cons_skip key ('=') _ hk heq]
      rw [strstr_skip_seg key v0 _ h0.2 (head_notin (' ') _ key hsp)]
      rw [strstr_cons_skip key (' ') _ hk hsp]
      exact ih (fun kv hkv => hall kv (by simp [hkv]))

/-- `strchr` skips a block free of the sought character. -/
theorem strchr_skip (seg z : List Char) (c : Char) (h : c ∉ seg) :
    strchrSuffix (seg ++ (c :: z)) c = some (c :: z) := by
  induction seg with
  | nil => simp [strchrSuffix]
  | cons a t ih =>
    have ha : a ≠ c := fun he => h (he ▸ List.mem_cons_self a t)
    rw [List.cons_append]
    show strchrSuffix (a :: (t ++ (c :: z))) c = some (c :: z)
    unfold strchrSuffix
    rw [if_neg ha]
    exact ih (fun hm => h (List.mem_cons_of_mem a hm))

/-- `takeWhile` keeps an all-satisfying block and stops at the head of the
rest. -/
theorem takeWhile_append_stop (p : Char → Bool) (v w : List Char)
    (hv : v.all p = true) (hw : ∀ c, w.head? = some c → p c = false) :
    (v ++ w).takeWhile p = v := by
  induction v with
  | nil =>
    cases w with
    | nil => rfl
    | cons a t =>
      have := hw a rfl
      simp [List.takeWhile, this]
  | cons a t ih =>
    have hall := List.all_eq_true.mp hv
    have hpa : p a = true := hall a (by simp)
    rw [List.cons_append]
    simp only [List.takeWhile, hpa]
    rw [ih (List.all_eq_true.mpr (fun x hx => hall x (by simp [hx]))) ]

/-- `dropWhile` is the identity when the head already fails the predicate. -/
theorem dropWhile_head_false (p : Char → Bool) (v : List Char)
    (h : ∀ c, v.head? = some c → p c = false) : v.dropWhile p = v := by
  cases v with
  | nil => rfl
  | cons a t =>
    have := h a rfl
    simp [List.dropWhile, this]

/-- `_copy_idline_str` applied at a token start extracts exactly the token's
value, provided the key contains no `=` and the value is nonempty and free
of the characters that stop the copy loop. -/
theorem copy_joinToks (key v : List Char) (rest : List (List Char × List Char))
    (heq : ('=') ∉ key) (hv : v ≠ []) (hvc : v.all goodChar = true) :
    copy_idline_str (joinToks ((key, v) :: rest)) = v := by
  have hdw : ∀ w : List Char, (v ++ w).dropWhile (fun c => c == (' ')) = v ++ w := by
    intro w
    refine dropWhile_head_false _ _ ?_
    intro c hc
    cases v with
    | nil => exact absurd rfl hv
    | cons a t =>
      rw [List.cons_append, List.head?_cons] at hc
      injection hc with h2
      rw [← h2]
      have hga : goodChar a = true := List.all_eq_true.mp hvc a (by simp)
      simp only [goodChar, Bool.and_eq_true, Bool.not_eq_true'] at hga
      exact hga.1.1
  cases rest with
  | nil =>
    show copy_idline_str (key ++ (('=') :: v)) = v
    unfold copy_idline_str
    rw [strchr_skip key v ('=') heq]
    simp only [List.drop_succ_cons, List.drop_zero]
    have := hdw []
    rw [List.append_nil] at this
    rw [this]
    have := takeWhile_append_stop goodChar v [] hvc (by intro c hc; cases hc)
    rw [List.append_nil] at this
    exact this
  | cons kv1 rest' =>
    rw [joinToks_cons key v _ (by simp)]
    unfold copy_idline_str
    rw [strchr_skip key _ ('=') heq]
    simp only [List.drop_succ_cons, List.drop_zero]
    rw [hdw ((' ') :: joinToks (kv1 :: rest'))]
    exact takeWhile_append_stop goodChar v _ hvc
      (by intro c hc; rw [List.head?_cons] at hc; injection hc with h2; rw [← h2]; decide)

/-- Character-level facts about decimal digits that the round-trip proof
needs: a digit is kept by the copy loop, is not a dot, and is a digit. -/
def digitCharOk (c : Char) : Bool :=
  c.isDigit && goodChar c && !(c == ('.')) && !(c == (' '))

/-- Every character produced by `digitOf` satisfies `digitCharOk`. -/
theorem digitOf_ok (d : Nat) : digitCharOk (digitOf d) = true := by
  unfold digitOf
  split <;> decide

/-- `digitOf d` has character code `48 + d` for digits. -/
theorem digitOf_toNat (d : Nat) (h : d < 10) : (digitOf d).toNat = 48 + d := by
  interval_cases d <;> decide

/-- All characters of `natCharsAux` outputs satisfy `digitCharOk`. -/
theorem natCharsAux_ok (n : Nat) : ∀ acc : List Char, acc.all digitCharOk = true →
    (natCharsAux n acc).all digitCharOk = true := by
  induction n using Nat.strong_induction_on with
  | _ n ih =>
    intro acc hacc
    unfold natCharsAux
    by_cases h : n < 10
    · rw [if_pos h]
      simp [digitOf_ok, hacc]
    · rw [if_neg h]
      exact ih (n / 10) (Nat.div_lt_self (by omega) (by omega)) _ (by simp [digitOf_ok, hacc])

/-- `natCharsAux` never returns an empty list. -/
theorem natCharsAux_ne (n : Nat) : ∀ acc : List Char, natCharsAux n acc ≠ [] := by
  induction n using Nat.strong_induction_on with
  | _ n ih =>
    intro acc
    unfold natCharsAux
    by_cases h : n < 10
    · simp [h]
    · rw [if_neg h]
      exact ih (n / 10) (Nat.div_lt_self (by omega) (by omega)) _

/-- The power-of-ten weight matching the recursion of `natCharsAux`. -/
def tenPow (n : Nat) : Nat :=
  if n < 10 then 10 else 10 * tenPow (n / 10)
termination_by n
decreasing_by exact Nat.div_lt_self (by omega) (by omega)

/-- One digit-consuming step of the `atoi` loop. -/
theorem atoiLoop_cons (a : Nat) (c : Char) (t : List Char) (h : c.isDigit = true) :
    atoiLoop a (c :: t) = atoiLoop (10 * a + (c.toNat - 48)) t := by
  simp [atoiLoop, h]

/-- Feeding the decimal representation into the `atoi` digit loop shifts the
accumulator by the number's weight and adds the number. -/
theorem atoiLoop_natCharsAux (n : Nat) : ∀ a : Nat, ∀ acc : List Char,
    atoiLoop a (natCharsAux n acc) = atoiLoop (a * tenPow n + n) acc := by
  induction n using Nat.strong_induction_on with
  | _ n ih =>
    intro a acc
    have hdig : (digitOf (n % 10)).isDigit = true := by
      have := digitOf_ok (n % 10)
      simp only [digitCharOk, Bool.and_eq_true] at this
      exact this.1.1.1
    have htn : (digitOf (n % 10)).toNat = 48 + n % 10 :=
      digitOf_toNat (n % 10) (Nat.mod_lt n (by omega))
    unfold natCharsAux
    by_cases h : n < 10
    · rw [if_pos h]
      rw [atoiLoop_cons a _ acc hdig, htn]
      have h1 : 10 * a + (48 + n % 10 - 48) = a * tenPow n + n := by
        have ht : tenPow n = 10 := by
          conv_lhs => rw [tenPow]
          rw [if_pos h]
        rw [ht]
        have : n % 10 = n := Nat.mod_eq_of_lt h
        omega
      rw [h1]
    · rw [if_neg h]
      rw [ih (n / 10) (Nat.div_lt_self (by omega) (by omega)) a (digitOf (n % 10) :: acc)]
      rw [atoiLoop_cons _ _ acc hdig, htn]
      have h1 : 10 * (a * tenPow (n / 10) + n / 10) + (48 + n % 10 - 48) =
          a * tenPow n + n := by
        have ht : tenPow n = 10 * tenPow (n / 10) := by
          conv_lhs => rw [tenPow]
          rw [if_neg h]
        rw [ht]
        have h2 := Nat.div_add_mod n 10
        have h3 : a * (10 * tenPow (n / 10)) = 10 * (a * tenPow (n / 10)) := by ring
        rw [h3]
        set X := a * tenPow (n / 10)
        omega
      rw [h1]

/-- The `atoi` model inverts the decimal printer. -/
theorem atoiNat_natChars (n : Nat) : atoiNat (natChars n) = n := by
  unfold atoiNat natChars
  have hall := natCharsAux_ok n [] (by simp)
  have hdw : (natCharsAux n []).dropWhile (fun c => c == (' ')) = natCharsAux n [] := by
    refine dropWhile_head_false _ _ ?_
    intro c hc
    cases hE : natCharsAux n [] with
    | nil => exact absurd hE (natCharsAux_ne n [])
    | cons a t =>
      rw [hE, List.head?_cons] at hc
      injection hc with h2
      rw [← h2]
      have hok : digitCharOk a = true := by
        rw [hE] at hall
        exact List.all_eq_true.mp hall a (by simp)
      simp only [digitCharOk, Bool.and_eq_true, Bool.not_eq_true'] at hok
      exact hok.2
  rw [hdw, atoiLoop_natCharsAux n 0 []]
  simp [atoiLoop]

/-- Well-formedness of a single serialised field value: nonempty, free of
the copy-stopping characters, and containing none of the five field keys as
a substring (so that `strstr` cannot find a key inside a value). -/
def valOk (v : List Char) : Bool :=
  !v.isEmpty && v.all goodChar &&
  (strstr v keyIDTYPE).isNone && (strstr v keyIDNAME).isNone &&
  (strstr v keyDEVNAME).isNone && (strstr v keyPVID).isNone && (strstr v keyPART).isNone

/-- A legal present field value additionally does not start with the `.`
that denotes absence. -/
def goodValue (v : List Char) : Bool :=
  valOk v && !(v.head? == some ('.'))

/-- Unpacking of `valOk`. -/
theorem valOk_spec (v : List Char) (h : valOk v = true) :
    v ≠ [] ∧ v.all goodChar = true ∧ strstr v keyIDTYPE = none ∧ strstr v keyIDNAME = none ∧
    strstr v keyDEVNAME = none ∧ strstr v keyPVID = none ∧ strstr v keyPART = none := by
  simp only [valOk, Bool.and_eq_true, Bool.not_eq_true', Option.isNone_iff_eq_none] at h
  obtain ⟨⟨⟨⟨⟨⟨h1, h2⟩, h3⟩, h4⟩, h5⟩, h6⟩, h7⟩ := h
  refine ⟨?_, h2, h3, h4, h5, h6, h7⟩
  intro hv
  rw [hv] at h1
  simp at h1

/-- The absence marker `.` is a well-formed value. -/
theorem valOk_dot : valOk dotVal = true := by decide

/-- Every `idtype_to_str` output is a well-formed value. -/
theorem valOk_idtype (x : Nat) : valOk (idtype_to_str x) = true := by
  unfold idtype_to_str
  split_ifs <;> decide

/-- A present legal value is well formed. -/
theorem goodValue_spec (v : List Char) (h : goodValue v = true) :
    valOk v = true ∧ v.head? ≠ some ('.') := by
  simp only [goodValue, Bool.and_eq_true, Bool.not_eq_true', beq_eq_false_iff_ne] at h
  exact h

/-- Decimal representations are well-formed values. -/
theorem valOk_natChars (n : Nat) : valOk (natChars n) = true := by
  have hall := natCharsAux_ok n [] (by simp)
  have hne := natCharsAux_ne n []
  have hgood : (natChars n).all goodChar = true := by
    refine List.all_eq_true.mpr ?_
    intro c hc
    have := List.all_eq_true.mp hall c hc
    simp only [digitCharOk, Bool.and_eq_true] at this
    exact this.1.1.2
  have hnone : ∀ key : List Char, ∀ c : Char, key.head? = some c → digitCharOk c = false →
      strstr (natChars n) key = none := by
    intro key c hc hcf
    exact strstr_none_of_all_pred digitCharOk (natChars n) key c hc hall hcf
  have hemp : (natChars n).isEmpty = false := by
    cases hE : natChars n with
    | nil => exact absurd hE hne
    | cons a t => rfl
  simp only [valOk, Bool.and_eq_true, Bool.not_eq_true', Option.isNone_iff_eq_none]
  refine ⟨⟨⟨⟨⟨⟨hemp, hgood⟩, ?_⟩, ?_⟩, ?_⟩, ?_⟩, ?_⟩
  · exact hnone keyIDTYPE ('I') (by decide) (by decide)
  · exact hnone keyIDNAME ('I') (by decide) (by decide)
  · exact hnone keyDEVNAME ('D') (by decide) (by decide)
  · exact hnone keyPVID ('P') (by decide) (by decide)
  · exact hnone keyPART ('P') (by decide) (by decide)

/-- The decimal representation never starts with a dot. -/
theorem natChars_head_ne_dot (n : Nat) : (natChars n).head? ≠ some ('.') := by
  have hall : (natChars n).all digitCharOk = true := natCharsAux_ok n [] (by simp)
  cases hE : natChars n with
  | nil => simp
  | cons a t =>
    rw [hE] at hall
    have hok : digitCharOk a = true := List.all_eq_true.mp hall a (by simp)
    intro hc
    rw [List.head?_cons] at hc
    injection hc with h2
    rw [h2] at hok
    exact absurd hok (by decide)

/-- `idtype_from_str` inverts `idtype_to_str` on the nine codes the file can
carry (the eight kinds and `0`, serialised as `unknown`). -/
theorem from_to_idtype (x : Nat) (h : x ≤ 8) : idtype_from_str (idtype_to_str x) = x := by
  interval_cases x <;> decide

/-- Legality of an in-memory use-entry for the round-trip: a representable
idtype code, and each present string field a legal value, with `devname`
starting with `/` (as the writer otherwise serialises `.`). -/
def legal_du (du : DevUse) : Bool :=
  decide (du.idtype ≤ 8) &&
  (match du.idname with | some v => goodValue v | none => true) &&
  (match du.devname with | some v => goodValue v && (v.head? == some ('/')) | none => true) &&
  (match du.pvid with | some v => goodValue v | none => true)

/-- The serialised entry line of `device_ids_write`, viewed as its token
list. -/
def entryToks (du : DevUse) : List (List Char × List Char) :=
  [(keyIDTYPE, idtype_to_str du.idtype),
   (keyIDNAME, write_idname du.idname),
   (keyDEVNAME, write_devname du.devname),
   (keyPVID, write_pvid du.pvid)] ++
  (if du.part ≠ 0 then [(keyPART, natChars du.part)] else [])

/-- The `IDTYPE=` literal splits into its key and the separator. -/
theorem dataIDTYPEeq : ("IDTYPE=").data = keyIDTYPE ++ [('=')] := rfl

/-- The padded `IDNAME=` literal splits into separator, key, separator. -/
theorem dataIDNAMEeq : (" IDNAME=").data = (' ') :: (keyIDNAME ++ [('=')]) := rfl

/-- The padded `DEVNAME=` literal splits likewise. -/
theorem dataDEVNAMEeq : (" DEVNAME=").data = (' ') :: (keyDEVNAME ++ [('=')]) := rfl

/-- The padded `PVID=` literal splits likewise. -/
theorem dataPVIDeq : (" PVID=").data = (' ') :: (keyPVID ++ [('=')]) := rfl

/-- The padded `PART=` literal splits likewise. -/
theorem dataPARTeq : (" PART=").data = (' ') :: (keyPART ++ [('=')]) := rfl

/-- The `fprintf` format of `device_ids_write` produces exactly the token
line. -/
theorem write_entry_eq (du : DevUse) : write_entry_line du = joinToks (entryToks du) := by
  by_cases hp : du.part = 0
  · simp only [write_entry_line, entryToks, hp, ne_eq, not_true_eq_false, if_false,
      joinToks, keyIDTYPE, keyIDNAME, keyDEVNAME, keyPVID, keyPART, List.append_nil,
      List.append_assoc, List.cons_append, List.nil_append, List.singleton_append]
  · simp only [write_entry_line, entryToks, hp, ne_eq, not_false_eq_true, if_true,
      joinToks, keyIDTYPE, keyIDNAME, keyDEVNAME, keyPVID, keyPART,
      List.append_assoc, List.cons_append, List.nil_append, List.singleton_append]

/-- Parsing a serialised four-field entry line (no `PART`) recovers each
field value. -/
theorem parse_entry_joinToks4 (t n d p : List Char)
    (hT : valOk t = true) (hN : valOk n = true) (hD : valOk d = true) (hP : valOk p = true) :
    parse_entry_line (joinToks [(keyIDTYPE, t), (keyIDNAME, n), (keyDEVNAME, d), (keyPVID, p)]) =
      some { idtype := idtype_from_str t,
             idname := if n ≠ [] ∧ n.head? ≠ some ('.') then some n else none,
             devname := if d ≠ [] ∧ d.head? ≠ some ('.') then some d else none,
             pvid := if p ≠ [] ∧ p.head? ≠ some ('.') then some p else none,
             part := 0 } := by
  obtain ⟨tne, tgood, tIT, tIN, tDN, tPV, tPA⟩ := valOk_spec t hT
  obtain ⟨nne, ngood, nIT, nIN, nDN, nPV, nPA⟩ := valOk_spec n hN
  obtain ⟨dne, dgood, dIT, dIN, dDN, dPV, dPA⟩ := valOk_spec d hD
  obtain ⟨pne, pgood, pIT, pIN, pDN, pPV, pPA⟩ := valOk_spec p hP
  have h1 : strstr (joinToks [(keyIDTYPE, t), (keyIDNAME, n), (keyDEVNAME, d), (keyPVID, p)])
      keyIDTYPE =
      some (joinToks [(keyIDTYPE, t), (keyIDNAME, n), (keyDEVNAME, d), (keyPVID, p)]) := by
    have := strstr_joinToks_found keyIDTYPE t [] [(keyIDNAME, n), (keyDEVNAME, d), (keyPVID, p)]
      (by decide) (by decide) (by decide) (by intro kv hkv; simp at hkv)
    simpa using this
  have hpre2 : ∀ kv ∈ [(keyIDTYPE, t)], strstr kv.1 keyIDNAME = none ∧
      strstr kv.2 keyIDNAME = none := by
    intro kv hkv
    simp only [List.mem_cons, List.not_mem_nil, or_false] at hkv
    subst hkv
    exact ⟨(by decide : strstr keyIDTYPE keyIDNAME = none), tIN⟩
  have h2 : strstr (joinToks [(keyIDTYPE, t), (keyIDNAME, n), (keyDEVNAME, d), (keyPVID, p)])
      keyIDNAME = some (joinToks [(keyIDNAME, n), (keyDEVNAME, d), (keyPVID, p)]) := by
    have := strstr_joinToks_found keyIDNAME n [(keyIDTYPE, t)] [(keyDEVNAME, d), (keyPVID, p)]
      (by decide) (by decide) (by decide) hpre2
    simpa using this
  have hpre3 : ∀ kv ∈ [(keyIDTYPE, t), (keyIDNAME, n)], strstr kv.1 keyDEVNAME = none ∧
      strstr kv.2 keyDEVNAME = none := by
    intro kv hkv
    simp only [List.mem_cons, List.not_mem_nil, or_false] at hkv
    rcases hkv with rfl | rfl
    · exact ⟨(by decide : strstr keyIDTYPE keyDEVNAME = none), tDN⟩
    · exact ⟨(by decide : strstr keyIDNAME keyDEVNAME = none), nDN⟩
  have h3 : strstr (joinToks [(keyIDTYPE, t), (keyIDNAME, n), (keyDEVNAME, d), (keyPVID, p)])
      keyDEVNAME = some (joinToks [(keyDEVNAME, d), (keyPVID, p)]) := by
    have := strstr_joinToks_found keyDEVNAME d [(keyIDTYPE, t), (keyIDNAME, n)] [(keyPVID, p)]
      (by decide) (by decide) (by decide) hpre3
    simpa using this
  have hpre4 : ∀ kv ∈ [(keyIDTYPE, t), (keyIDNAME, n), (keyDEVNAME, d)],
      strstr kv.1 keyPVID = none ∧ strstr kv.2 keyPVID = none := by
    intro kv hkv
    simp only [List.mem_cons, List.not_mem_nil, or_false] at hkv
    rcases hkv with rfl | rfl | rfl
    · exact ⟨(by decide : strstr keyIDTYPE keyPVID = none), tPV⟩
    · exact ⟨(by decide : strstr keyIDNAME keyPVID = none), nPV⟩
    · exact ⟨(by decide : strstr keyDEVNAME keyPVID = none), dPV⟩
  have h4 : strstr (joinToks [(keyIDTYPE, t), (keyIDNAME, n), (keyDEVNAME, d), (keyPVID, p)])
      keyPVID = some (joinToks [(keyPVID, p)]) := by
    have := strstr_joinToks_found keyPVID p [(keyIDTYPE, t), (keyIDNAME, n), (keyDEVNAME, d)] []
      (by decide) (by decide) (by decide) hpre4
    simpa using this
  have hall5 : ∀ kv ∈ [(keyIDTYPE, t), (keyIDNAME, n), (keyDEVNAME, d), (keyPVID, p)],
      strstr kv.1 keyPART = none ∧ strstr kv.2 keyPART = none := by
    intro kv hkv
    simp only [List.mem_cons, List.not_mem_nil, or_false] at hkv
    rcases hkv with rfl | rfl | rfl | rfl
    · exact ⟨(by decide : strstr keyIDTYPE keyPART = none), tPA⟩
    · exact ⟨(by decide : strstr keyIDNAME keyPART = none), nPA⟩
    · exact ⟨(by decide : strstr keyDEVNAME keyPART = none), dPA⟩
    · exact ⟨(by decide : strstr keyPVID keyPART = none), pPA⟩
  have h5 : strstr (joinToks [(keyIDTYPE, t), (keyIDNAME, n), (keyDEVNAME, d), (keyPVID, p)])
      keyPART = none :=
    strstr_joinToks_none keyPART _ (by decide) (by decide) (by decide) hall5
  have c1 : copy_idline_str
      (joinToks [(keyIDTYPE, t), (keyIDNAME, n), (keyDEVNAME, d), (keyPVID, p)]) = t :=
    copy_joinToks keyIDTYPE t _ (by decide) tne tgood
  have c2 : copy_idline_str (joinToks [(keyIDNAME, n), (keyDEVNAME, d), (keyPVID, p)]) = n :=
    copy_joinToks keyIDNAME n _ (by decide) nne ngood
  have c3 : copy_idline_str (joinToks [(keyDEVNAME, d), (keyPVID, p)]) = d :=
    copy_joinToks keyDEVNAME d _ (by decide) dne dgood
  have c4 : copy_idline_str (joinToks [(keyPVID, p)]) = p :=
    copy_joinToks keyPVID p _ (by decide) pne pgood
  simp only [parse_entry_line, h1, h2, h3, h4, h5, c1, c2, c3, c4]
  simp [tne]

/-- Parsing a serialised five-field entry line (with `PART`) recovers each
field value, the partition index through `atoi`. -/
theorem parse_entry_joinToks5 (t n d p w : List Char)
    (hT : valOk t = true) (hN : valOk n = true) (hD : valOk d = true) (hP : valOk p = true)
    (hW : valOk w = true) :
    parse_entry_line
      (joinToks [(keyIDTYPE, t), (keyIDNAME, n), (keyDEVNAME, d), (keyPVID, p), (keyPART, w)]) =
      some { idtype := idtype_from_str t,
             idname := if n ≠ [] ∧ n.head? ≠ some ('.') then some n else none,
             devname := if d ≠ [] ∧ d.head? ≠ some ('.') then some d else none,
             pvid := if p ≠ [] ∧ p.head? ≠ some ('.') then some p else none,
             part := if w ≠ [] ∧ w.head? ≠ some ('.') then atoiNat w else 0 } := by
  obtain ⟨tne, tgood, tIT, tIN, tDN, tPV, tPA⟩ := valOk_spec t hT
  obtain ⟨nne, ngood, nIT, nIN, nDN, nPV, nPA⟩ := valOk_spec n hN
  obtain ⟨dne, dgood, dIT, dIN, dDN, dPV, dPA⟩ := valOk_spec d hD
  obtain ⟨pne, pgood, pIT, pIN, pDN, pPV, pPA⟩ := valOk_spec p hP
  obtain ⟨wne, wgood, wIT, wIN, wDN, wPV, wPA⟩ := valOk_spec w hW
  have h1 : strstr
      (joinToks [(keyIDTYPE, t), (keyIDNAME, n), (keyDEVNAME, d), (keyPVID, p), (keyPART, w)])
      keyIDTYPE =
      some (joinToks
        [(keyIDTYPE, t), (keyIDNAME, n), (keyDEVNAME, d), (keyPVID, p), (keyPART, w)]) := by
    have := strstr_joinToks_found keyIDTYPE t []
      [(keyIDNAME, n), (keyDEVNAME, d), (keyPVID, p), (keyPART, w)]
      (by decide) (by decide) (by decide) (by intro kv hkv; simp at hkv)
    simpa using this
  have hpre2 : ∀ kv ∈ [(keyIDTYPE, t)], strstr kv.1 keyIDNAME = none ∧
      strstr kv.2 keyIDNAME = none := by
    intro kv hkv
    simp only [List.mem_cons, List.not_mem_nil, or_false] at hkv
    subst hkv
    exact ⟨(by decide : strstr keyIDTYPE keyIDNAME = none), tIN⟩
  have h2 : strstr
      (joinToks [(keyIDTYPE, t), (keyIDNAME, n), (keyDEVNAME, d), (keyPVID, p), (keyPART, w)])
      keyIDNAME =
      some (joinToks [(keyIDNAME, n), (keyDEVNAME, d), (keyPVID, p), (keyPART, w)]) := by
    have := strstr_joinToks_found keyIDNAME n [(keyIDTYPE, t)]
      [(keyDEVNAME, d), (keyPVID, p), (keyPART, w)]
      (by decide) (by decide) (by decide) hpre2
    simpa using this
  have hpre3 : ∀ kv ∈ [(keyIDTYPE, t), (keyIDNAME, n)], strstr kv.1 keyDEVNAME = none ∧
      strstr kv.2 keyDEVNAME = none := by
    intro kv hkv
    simp only [List.mem_cons, List.not_mem_nil, or_false] at hkv
    rcases hkv with rfl | rfl
    · exact ⟨(by decide : strstr keyIDTYPE keyDEVNAME = none), tDN⟩
    · exact ⟨(by decide : strstr keyIDNAME keyDEVNAME = none), nDN⟩
  have h3 : strstr
      (joinToks [(keyIDTYPE, t), (keyIDNAME, n), (keyDEVNAME, d), (keyPVID, p), (keyPART, w)])
      keyDEVNAME = some (joinToks [(keyDEVNAME, d), (keyPVID, p), (keyPART, w)]) := by
    have := strstr_joinToks_found keyDEVNAME d [(keyIDTYPE, t), (keyIDNAME, n)]
      [(keyPVID, p), (keyPART, w)]
      (by decide) (by decide) (by decide) hpre3
    simpa using this
  have hpre4 : ∀ kv ∈ [(keyIDTYPE, t), (keyIDNAME, n), (keyDEVNAME, d)],
      strstr kv.1 keyPVID = none ∧ strstr kv.2 keyPVID = none := by
    intro kv hkv
    simp only [List.mem_cons, List.not_mem_nil, or_false] at hkv
    rcases hkv with rfl | rfl | rfl
    · exact ⟨(by decide : strstr keyIDTYPE keyPVID = none), tPV⟩
    · exact ⟨(by decide : strstr keyIDNAME keyPVID = none), nPV⟩
    · exact ⟨(by decide : strstr keyDEVNAME keyPVID = none), dPV⟩
  have h4 : strstr
      (joinToks [(keyIDTYPE, t), (keyIDNAME, n), (keyDEVNAME, d), (keyPVID, p), (keyPART, w)])
      keyPVID = some (joinToks [(keyPVID, p), (keyPART, w)]) := by
    have := strstr_joinToks_found keyPVID p
      [(keyIDTYPE, t), (keyIDNAME, n), (keyDEVNAME, d)] [(keyPART, w)]
      (by decide) (by decide) (by decide) hpre4
    simpa using this
  have hpre5 : ∀ kv ∈ [(keyIDTYPE, t), (keyIDNAME, n), (keyDEVNAME, d), (keyPVID, p)],
      strstr kv.1 keyPART = none ∧ strstr kv.2 keyPART = none := by
    intro kv hkv
    simp only [List.mem_cons, List.not_mem_nil, or_false] at hkv
    rcases hkv with rfl | rfl | rfl | rfl
    · exact ⟨(by decide : strstr keyIDTYPE keyPART = none), tPA⟩
    · exact ⟨(by decide : strstr keyIDNAME keyPART = none), nPA⟩
    · exact ⟨(by decide : strstr keyDEVNAME keyPART = none), dPA⟩
    · exact ⟨(by decide : strstr keyPVID keyPART = none), pPA⟩
  have h5 : strstr
      (joinToks [(keyIDTYPE, t), (keyIDNAME, n), (keyDEVNAME, d), (keyPVID, p), (keyPART, w)])
      keyPART = some (joinToks [(keyPART, w)]) := by
    have := strstr_joinToks_found keyPART w
      [(keyIDTYPE, t), (keyIDNAME, n), (keyDEVNAME, d), (keyPVID, p)] []
      (by decide) (by decide) (by decide) hpre5
    simpa using this
  have c1 : copy_idline_str
      (joinToks [(keyIDTYPE, t), (keyIDNAME, n), (keyDEVNAME, d), (keyPVID, p), (keyPART, w)]) =
      t := copy_joinToks keyIDTYPE t _ (by decide) tne tgood
  have c2 : copy_idline_str
      (joinToks [(keyIDNAME, n), (keyDEVNAME, d), (keyPVID, p), (keyPART, w)]) = n :=
    copy_joinToks keyIDNAME n _ (by decide) nne ngood
  have c3 : copy_idline_str (joinToks [(keyDEVNAME, d), (keyPVID, p), (keyPART, w)]) = d :=
    copy_joinToks keyDEVNAME d _ (by decide) dne dgood
  have c4 : copy_idline_str (joinToks [(keyPVID, p), (keyPART, w)]) = p :=
    copy_joinToks keyPVID p _ (by decide) pne pgood
  have c5 : copy_idline_str (joinToks [(keyPART, w)]) = w :=
    copy_joinToks keyPART w _ (by decide) wne wgood
  simp only [parse_entry_line, h1, h2, h3, h4, h5, c1, c2, c3, c4, c5]
  simp [tne]

/-- Round trip of a single legal use-entry: parsing the line that
`device_ids_write` emits for it recovers exactly the entry, with `.`
mapping back to an absent field. -/
theorem parse_write_entry (du : DevUse) (h : legal_du du = true) :
    parse_entry_line (write_entry_line du) = some du := by
  obtain ⟨ity, inm, dnm, pvd, prt⟩ := du
  rw [write_entry_eq]
  simp only [legal_du, Bool.and_eq_true, decide_eq_true_eq] at h
  obtain ⟨⟨⟨hty, hin⟩, hdn⟩, hpv⟩ := h
  have hvN : valOk (write_idname inm) = true := by
    cases inm with
    | none => exact valOk_dot
    | some n =>
      simp only [write_idname]
      exact (goodValue_spec n hin).1
  have hvD : valOk (write_devname dnm) = true := by
    cases dnm with
    | none => exact valOk_dot
    | some d =>
      simp only [write_devname]
      simp only [Bool.and_eq_true] at hdn
      have hslash : d.head? = some ('/') := by simpa using hdn.2
      rw [if_pos hslash]
      exact (goodValue_spec d hdn.1).1
  have hvP : valOk (write_pvid pvd) = true := by
    cases pvd with
    | none => exact valOk_dot
    | some p =>
      simp only [write_pvid]
      obtain ⟨hpo, hph⟩ := goodValue_spec p hpv
      have hpne := (valOk_spec p hpo).1
      rw [if_pos (And.intro hpne hph)]
      exact hpo
  have fieldN : (if write_idname inm ≠ [] ∧ (write_idname inm).head? ≠ some ('.')
      then some (write_idname inm) else none) = inm := by
    cases inm with
    | none => decide
    | some n =>
      simp only [write_idname]
      obtain ⟨hno, hnh⟩ := goodValue_spec n hin
      have hnne := (valOk_spec n hno).1
      exact if_pos (And.intro hnne hnh)
  have fieldD : (if write_devname dnm ≠ [] ∧ (write_devname dnm).head? ≠ some ('.')
      then some (write_devname dnm) else none) = dnm := by
    cases dnm with
    | none => decide
    | some d =>
      simp only [write_devname]
      simp only [Bool.and_eq_true] at hdn
      have hslash : d.head? = some ('/') := by simpa using hdn.2
      have hdne := (valOk_spec d (goodValue_spec d hdn.1).1).1
      have hdh : d.head? ≠ some ('.') := by
        rw [hslash]
        intro hc
        injection hc with h2
        exact absurd h2 (by decide)
      rw [if_pos hslash]
      exact if_pos (And.intro hdne hdh)
  have fieldP : (if write_pvid pvd ≠ [] ∧ (write_pvid pvd).head? ≠ some ('.')
      then some (write_pvid pvd) else none) = pvd := by
    cases pvd with
    | none => decide
    | some p =>
      simp only [write_pvid]
      obtain ⟨hpo, hph⟩ := goodValue_spec p hpv
      have hpne := (valOk_spec p hpo).1
      rw [if_pos (And.intro hpne hph)]
      exact if_pos (And.intro hpne hph)
  have fieldT : idtype_from_str (idtype_to_str ity) = ity := from_to_idtype ity hty
  by_cases hp : prt = 0
  · have hE : entryToks ⟨ity, inm, dnm, pvd, prt⟩ =
        [(keyIDTYPE, idtype_to_str ity), (keyIDNAME, write_idname inm),
         (keyDEVNAME, write_devname dnm), (keyPVID, write_pvid pvd)] := by
      simp [entryToks, hp]
    rw [hE, parse_entry_joinToks4 _ _ _ _ (valOk_idtype ity) hvN hvD hvP]
    rw [fieldT, fieldN, fieldD, fieldP, hp]
  · have hE : entryToks ⟨ity, inm, dnm, pvd, prt⟩ =
        [(keyIDTYPE, idtype_to_str ity), (keyIDNAME, write_idname inm),
         (keyDEVNAME, write_devname dnm), (keyPVID, write_pvid pvd),
         (keyPART, natChars prt)] := by
      simp [entryToks, hp]
    rw [hE, parse_entry_joinToks5 _ _ _ _ _ (valOk_idtype ity) hvN hvD hvP (valOk_natChars prt)]
    rw [fieldT, fieldN, fieldD, fieldP]
    have hw : natChars prt ≠ [] := natCharsAux_ne prt []
    have hwh : (natChars prt).head? ≠ some ('.') := natChars_head_ne_dot prt
    rw [if_pos (And.intro hw hwh), atoiNat_natChars]

/-- A comment line leaves the read state unchanged. -/
theorem read_line_comment (lsid : Option (List Char)) (acc : ReadAcc) (l : List Char)
    (hl : l.head? = some ('#')) : read_line lsid acc l = acc := by
  unfold read_line
  rw [if_pos hl]

/-- A serialised entry line appends exactly its entry. -/
theorem read_line_entry (lsid : Option (List Char)) (acc : ReadAcc) (du : DevUse)
    (h : legal_du du = true) :
    read_line lsid acc (write_entry_line du) = { acc with entries := acc.entries ++ [du] } := by
  have hpe := parse_write_entry du h
  obtain ⟨r, hr⟩ : ∃ r, write_entry_line du = ('I') :: r := ⟨_, rfl⟩
  rw [hr] at hpe
  rw [hr]
  unfold read_line
  have h2 : ("SYSTEMID").data.isPrefixOf (('I') :: r) = false := rfl
  have h3 : ("VERSION").data.isPrefixOf (('I') :: r) = false := rfl
  rw [if_neg (by simp : ¬ ((('I') :: r).head? = some ('#'))),
      if_neg (by simp [h2] : ¬ (("SYSTEMID").data.isPrefixOf (('I') :: r) = true)),
      if_neg (by simp [h3] : ¬ (("VERSION").data.isPrefixOf (('I') :: r) = true)), hpe]

/-- Folding the reader over serialised entry lines appends them in order. -/
theorem read_fold_entries (lsid : Option (List Char)) (dus : List DevUse) :
    ∀ acc : ReadAcc, (∀ du ∈ dus, legal_du du = true) →
    List.foldl (read_line lsid) acc (dus.map write_entry_line) =
      { acc with entries := acc.entries ++ dus } := by
  induction dus with
  | nil =>
    intro acc h
    simp
  | cons du rest ih =>
    intro acc h
    simp only [List.map_cons, List.foldl_cons]
    rw [read_line_entry lsid acc du (h du (by simp))]
    rw [ih _ (fun x hx => h x (by simp [hx]))]
    simp

/-- A `SYSTEMID` header line touches neither the entries nor the version
buffer. -/
theorem read_line_sysid_fields (lsid : Option (List Char)) (acc : ReadAcc) (s : List Char) :
    (read_line lsid acc (("SYSTEMID=").data ++ s)).entries = acc.entries ∧
    (read_line lsid acc (("SYSTEMID=").data ++ s)).version = acc.version := by
  have hh : (("SYSTEMID=").data ++ s).head? = some ('S') := rfl
  have hpre : ("SYSTEMID").data.isPrefixOf (("SYSTEMID=").data ++ s) = true := by
    show ("SYSTEMID").data.isPrefixOf (("SYSTEMID").data ++ (('=') :: s)) = true
    exact List.isPrefixOf_iff_prefix.mpr (List.prefix_append _ _)
  unfold read_line
  rw [if_neg (by rw [hh]; simp), if_pos hpre]
  exact ⟨rfl, rfl⟩

/-- A `VERSION` line copies its value into the version buffer and keeps the
entries. -/
theorem read_line_vline (lsid : Option (List Char)) (acc : ReadAcc) (x : List Char) :
    read_line lsid acc (("VERSION=").data ++ x) =
      { acc with version := copy_idline_str (("VERSION=").data ++ x) } := by
  have hh : (("VERSION=").data ++ x).head? = some ('V') := rfl
  have hs : ("SYSTEMID").data.isPrefixOf (("VERSION=").data ++ x) = false := rfl
  have hpre : ("VERSION").data.isPrefixOf (("VERSION=").data ++ x) = true := by
    show ("VERSION").data.isPrefixOf (("VERSION").data ++ (('=') :: x)) = true
    exact List.isPrefixOf_iff_prefix.mpr (List.prefix_append _ _)
  unfold read_line
  rw [if_neg (by rw [hh]; simp), if_neg (by simp [hs]), if_pos hpre]

/-- `dropWhile` discards an all-satisfying block. -/
theorem dropWhile_append_all (p : Char → Bool) (v w : List Char) (hv : v.all p = true) :
    (v ++ w).dropWhile p = w.dropWhile p := by
  induction v with
  | nil => rfl
  | cons a t ih =>
    have hall := List.all_eq_true.mp hv
    have hpa : p a = true := hall a (by simp)
    rw [List.cons_append]
    simp only [List.dropWhile, hpa]
    exact ih (List.all_eq_true.mpr (fun x hx => hall x (by simp [hx])))

/-- Every character of a decimal representation is kept by the copy loop. -/
theorem natChars_good (n : Nat) : (natChars n).all goodChar = true := by
  have hall := natCharsAux_ok n [] (by simp)
  refine List.all_eq_true.mpr ?_
  intro c hc
  have := List.all_eq_true.mp hall c hc
  simp only [digitCharOk, Bool.and_eq_true] at this
  exact this.1.1.2

/-- The digit loop started at zero recovers the printed number. -/
theorem atoiLoop_natChars (n : Nat) : atoiLoop 0 (natChars n) = n := by
  unfold natChars
  rw [atoiLoop_natCharsAux n 0 []]
  simp [atoiLoop]

/-- One `%u` conversion consumes exactly a decimal representation when the
following character is neither a digit nor a space. -/
theorem scanUInt_natChars (n : Nat) (w : List Char)
    (hw : ∀ c, w.head? = some c → c.isDigit = false ∧ (c == (' ')) = false) :
    scanUInt (natChars n ++ w) = some (n, w) := by
  have hdigits : (natChars n).all (fun c => c.isDigit) = true := by
    have hall := natCharsAux_ok n [] (by simp)
    refine List.all_eq_true.mpr ?_
    intro c hc
    have := List.all_eq_true.mp hall c hc
    simp only [digitCharOk, Bool.and_eq_true] at this
    exact this.1.1.1
  have hne := natCharsAux_ne n []
  have hd : (natChars n ++ w).dropWhile (fun c => c == (' ')) = natChars n ++ w := by
    refine dropWhile_head_false _ _ ?_
    intro c hc
    cases hE : natChars n with
    | nil => exact absurd hE hne
    | cons a t =>
      rw [hE, List.cons_append, List.head?_cons] at hc
      injection hc with h2
      rw [← h2]
      have : digitCharOk a = true := by
        have hall := natCharsAux_ok n [] (by simp)
        rw [show natCharsAux n [] = natChars n from rfl, hE] at hall
        exact List.all_eq_true.mp hall a (by simp)
      simp only [digitCharOk, Bool.and_eq_true, Bool.not_eq_true'] at this
      exact this.2
  have ht : (natChars n ++ w).takeWhile (fun c => c.isDigit) = natChars n :=
    takeWhile_append_stop _ _ _ hdigits (fun c hc => (hw c hc).1)
  have hdd : (natChars n ++ w).dropWhile (fun c => c.isDigit) = w := by
    rw [dropWhile_append_all _ _ _ hdigits]
    exact dropWhile_head_false _ _ (fun c hc => (hw c hc).1)
  have hie : (natChars n).isEmpty = false := by
    cases hE : natChars n with
    | nil => exact absurd hE hne
    | cons a t => rfl
  simp only [scanUInt, hd, ht, hdd, hie, Bool.false_eq_true, if_false,
    atoiLoop_natChars]

/-- The dot-separated version value parses back to its three counters. -/
theorem parseVersion_vval (a b c : Nat) :
    parseVersion (natChars a ++ (('.') :: (natChars b ++ (('.') :: natChars c)))) =
      some (a, b, c) := by
  have hdot : ∀ r : List Char, ∀ ch : Char, ((('.') :: r).head? = some ch) →
      ch.isDigit = false ∧ (ch == (' ')) = false := by
    intro r ch hc
    rw [List.head?_cons] at hc
    injection hc with h2
    rw [← h2]
    exact ⟨by decide, by decide⟩
  have h3 : scanUInt (natChars c) = some (c, []) := by
    have := scanUInt_natChars c [] (by intro ch hc; cases hc)
    simpa using this
  unfold parseVersion
  rw [scanUInt_natChars a _ (hdot _)]
  simp only []
  rw [scanUInt_natChars b _ (hdot _)]
  simp only []
  rw [h3]

/-- Copying the value of a `VERSION=` line recovers the serialised value. -/
theorem copy_vline (x : List Char) (hx : x.all goodChar = true) :
    copy_idline_str (("VERSION=").data ++ x) = x := by
  show copy_idline_str (("VERSION").data ++ (('=') :: x)) = x
  unfold copy_idline_str
  rw [strchr_skip (("VERSION").data) x ('=') (by decide)]
  simp only [List.drop_succ_cons, List.drop_zero]
  have h1 : x.dropWhile (fun c => c == (' ')) = x := by
    refine dropWhile_head_false _ _ ?_
    intro c hc
    cases x with
    | nil => cases hc
    | cons a t =>
      rw [List.head?_cons] at hc
      injection hc with h2
      rw [← h2]
      have hga : goodChar a = true := List.all_eq_true.mp hx a (by simp)
      simp only [goodChar, Bool.and_eq_true, Bool.not_eq_true'] at hga
      exact hga.1.1
  rw [h1]
  have := takeWhile_append_stop goodChar x [] hx (by intro c hc; cases hc)
  simpa using this

/-- The serialised version value is made of copy-safe characters. -/
theorem vval_all_good (a b c : Nat) :
    (natChars a ++ (('.') :: (natChars b ++ (('.') :: natChars c)))).all goodChar = true := by
  simp only [List.all_append, List.all_cons, Bool.and_eq_true]
  exact ⟨natChars_good a, by decide, natChars_good b, by decide, natChars_good c⟩

/-- Shape of a successful `device_ids_write`: the version gate passed and
the output is the comment header, the optional `SYSTEMID` line, the
incremented `VERSION` line, and the serialised entries. -/
theorem device_ids_write_some (sysid : Option (List Char)) (vbuf : List Char)
    (dus : List DevUse) (lines : List (List Char)) (nv : List Char)
    (hw : device_ids_write sysid vbuf dus = some (lines, nv)) :
    ∃ dfM dfm dfC : Nat,
      (if vbuf.isEmpty then some (dfM, dfm, dfC) else parseVersion vbuf) = some (dfM, dfm, dfC) ∧
      dfM ≤ DEVICES_FILE_MAJOR ∧
      lines =
        ([("# LVM uses devices listed in this file.").data,
          ("# Created by LVM command").data] ++
         sysidLines sysid ++
         [("VERSION=").data ++ natChars DEVICES_FILE_MAJOR ++
           (('.') :: natChars DEVICES_FILE_MINOR) ++ (('.') :: natChars (dfC + 1))]) ++
        dus.map write_entry_line ∧
      nv = copy_idline_str (("VERSION=").data ++ natChars DEVICES_FILE_MAJOR ++
           (('.') :: natChars DEVICES_FILE_MINOR) ++ (('.') :: natChars (dfC + 1))) := by
  unfold device_ids_write at hw
  split at hw
  · exact absurd hw (by simp)
  · next M m C heq =>
    split at hw
    · exact absurd hw (by simp)
    · next hM =>
      rw [Option.some.injEq, Prod.mk.injEq] at hw
      refine ⟨M, m, C, ?_, by omega, hw.1.symm, hw.2.symm⟩
      by_cases hve : vbuf.isEmpty
      · rw [if_pos hve]
      · rw [if_neg hve]
        rw [if_neg hve] at heq
        exact heq

/-- Reading the lines produced by a successful write yields exactly the
serialised entries and the written version value. -/
theorem read_lines_write_shape (lsid sysid : Option (List Char)) (dus : List DevUse)
    (x : List Char) (h : ∀ du ∈ dus, legal_du du = true) :
    (read_lines lsid
      (([("# LVM uses devices listed in this file.").data,
         ("# Created by LVM command").data] ++
        sysidLines sysid ++ [("VERSION=").data ++ x]) ++ dus.map write_entry_line)).entries =
      dus ∧
    (read_lines lsid
      (([("# LVM uses devices listed in this file.").data,
         ("# Created by LVM command").data] ++
        sysidLines sysid ++ [("VERSION=").data ++ x]) ++ dus.map write_entry_line)).version =
      copy_idline_str (("VERSION=").data ++ x) := by
  unfold read_lines
  rw [List.foldl_append, List.foldl_append, List.foldl_append]
  have e1 : List.foldl (read_line lsid) ⟨[], [], [], 0⟩
      [("# LVM uses devices listed in this file.").data,
       ("# Created by LVM command").data] = (⟨[], [], [], 0⟩ : ReadAcc) := by
    rw [List.foldl_cons]
    rw [read_line_comment lsid ⟨[], [], [], 0⟩
      (("# LVM uses devices listed in this file.").data) rfl]
    rw [List.foldl_cons]
    rw [read_line_comment lsid ⟨[], [], [], 0⟩ (("# Created by LVM command").data) rfl]
    rw [List.foldl_nil]
  rw [e1]
  cases sysid with
  | none =>
    rw [show sysidLines none = ([] : List (List Char)) from rfl, List.foldl_nil]
    rw [List.foldl_cons, List.foldl_nil]
    rw [read_line_vline lsid ⟨[], [], [], 0⟩ x]
    rw [read_fold_entries lsid dus _ h]
    exact ⟨rfl, rfl⟩
  | some s =>
    rw [show sysidLines (some s) = [("SYSTEMID=").data ++ s] from rfl]
    rw [List.foldl_cons, List.foldl_nil]
    rw [List.foldl_cons, List.foldl_nil]
    rw [read_line_vline lsid _ x]
    rw [read_fold_entries lsid dus _ h]
    obtain ⟨he, hv⟩ := read_line_sysid_fields lsid ⟨[], [], [], 0⟩ s
    constructor
    · show (read_line lsid ⟨[], [], [], 0⟩ (("SYSTEMID=").data ++ s)).entries ++ dus = dus
      rw [he]
      rfl
    · rfl

/-- C1: round trip of the devices file.  For a registry of legal use-entries
(each present field a nonempty value free of copy-stopping characters and of
field-key substrings, not starting with `.`, the devname starting with `/`,
and a representable idtype code), writing the file with `device_ids_write`
and parsing it back with the `device_ids_read` line loop yields exactly the
same list of use-entries: the serialiser's fixed field order is one of the
orders the reader accepts, and every field serialised as `.` is parsed back
as absent. -/
theorem devices_file_roundtrip (sysid lsid : Option (List Char)) (vbuf : List Char)
    (dus : List DevUse) (lines : List (List Char)) (nv : List Char)
    (h : ∀ du ∈ dus, legal_du du = true)
    (hw : device_ids_write sysid vbuf dus = some (lines, nv)) :
    (read_lines lsid lines).entries = dus := by
  obtain ⟨dfM, dfm, dfC, hparse, hle, hlines, hnv⟩ :=
    device_ids_write_some sysid vbuf dus lines nv hw
  rw [hlines]
  have hsh := read_lines_write_shape lsid sysid dus
    (natChars DEVICES_FILE_MAJOR ++ ((('.') :: natChars DEVICES_FILE_MINOR) ++
      (('.') :: natChars (dfC + 1)))) h
  have hassoc : ("VERSION=").data ++ natChars DEVICES_FILE_MAJOR ++
      (('.') :: natChars DEVICES_FILE_MINOR) ++ (('.') :: natChars (dfC + 1)) =
      ("VERSION=").data ++ (natChars DEVICES_FILE_MAJOR ++
        ((('.') :: natChars DEVICES_FILE_MINOR) ++ (('.') :: natChars (dfC + 1)))) := by
    simp [List.append_assoc]
  rw [hassoc]
  exact hsh.1

/-- C1 witness: a concrete two-entry registry (one full entry with a
partition index, one devname entry with absent fields) written and parsed
back unchanged. -/
def c1dus : List DevUse :=
  [⟨DEV_ID_TYPE_SYS_WWID, some (("naa.55cd2e0").data), some (("/dev/sda").data),
    some (("8SBfKqAxjRTW59bb").data), 2⟩,
   ⟨DEV_ID_TYPE_DEVNAME, some (("/dev/sdb").data), none, none, 0⟩]

/-- C1 witness theorem: the round trip evaluates on `c1dus`. -/
theorem devices_file_roundtrip_witness :
    ((device_ids_write none (("1.1.5").data) c1dus).map
      (fun r => (read_lines none r.1).entries)) = some c1dus := by
  cases hE : device_ids_write none (("1.1.5").data) c1dus with
  | none => exact absurd hE (by decide)
  | some r =>
    have hr : device_ids_write none (("1.1.5").data) c1dus = some (r.1, r.2) := by
      rw [hE]
    have := devices_file_roundtrip none none (("1.1.5").data) c1dus r.1 r.2 (by decide) hr
    simp [Option.map, this]

/-- C5: the version counter is strictly monotonic.  A successful
`device_ids_write` with a parseable remembered version `M.m.c` emits a
`VERSION` line whose value parses as `DEVICES_FILE_MAJOR.DEVICES_FILE_MINOR.(c+1)`
— the counter exactly one above the one read from the file (the remembered
buffer holds either the file's version or the previous write's, which the
write itself updates to the emitted value, so successive writes keep
incrementing) — and parsing the written file yields exactly that
incremented version value. -/
theorem version_monotonic (sysid lsid : Option (List Char)) (vbuf : List Char)
    (dus : List DevUse) (M m c : Nat) (lines : List (List Char)) (nv : List Char)
    (hnempty : vbuf ≠ []) (hv : parseVersion vbuf = some (M, m, c))
    (h : ∀ du ∈ dus, legal_du du = true)
    (hw : device_ids_write sysid vbuf dus = some (lines, nv)) :
    parseVersion nv = some (DEVICES_FILE_MAJOR, DEVICES_FILE_MINOR, c + 1) ∧
    (read_lines lsid lines).version = nv := by
  obtain ⟨dfM, dfm, dfC, hparse, hle, hlines, hnv⟩ :=
    device_ids_write_some sysid vbuf dus lines nv hw
  have hvE : vbuf.isEmpty = false := by
    cases vbuf with
    | nil => exact absurd rfl hnempty
    | cons a t => rfl
  rw [if_neg (by simp [hvE])] at hparse
  rw [hv] at hparse
  injection hparse with h2
  rw [Prod.mk.injEq, Prod.mk.injEq] at h2
  obtain ⟨hM2, hm2, hc2⟩ := h2
  subst hM2
  subst hm2
  subst hc2
  have hx : ("VERSION=").data ++ natChars DEVICES_FILE_MAJOR ++
      (('.') :: natChars DEVICES_FILE_MINOR) ++ (('.') :: natChars (c + 1)) =
      ("VERSION=").data ++ (natChars DEVICES_FILE_MAJOR ++
        (('.') :: (natChars DEVICES_FILE_MINOR ++ (('.') :: natChars (c + 1))))) := by
    simp [List.append_assoc]
  rw [hx] at hnv hlines
  have hgood := vval_all_good DEVICES_FILE_MAJOR DEVICES_FILE_MINOR (c + 1)
  have hcopy := copy_vline _ hgood
  constructor
  · rw [hnv, hcopy]
    exact parseVersion_vval DEVICES_FILE_MAJOR DEVICES_FILE_MINOR (c + 1)
  · rw [hlines, hnv]
    exact (read_lines_write_shape lsid sysid dus _ h).2

/-- C5 witness: writing with remembered version `1.1.5` produces a file
whose version value parses as `1.1.6` and reads back verbatim. -/
theorem version_monotonic_witness :
    ((device_ids_write none (("1.1.5").data) []).map
      (fun r => (parseVersion r.2, (read_lines none r.1).version == r.2))) =
      some (some (1, 1, 6), true) := by
  cases hE : device_ids_write none (("1.1.5").data) [] with
  | none => exact absurd hE (by decide)
  | some r =>
    have hr : device_ids_write none (("1.1.5").data) [] = some (r.1, r.2) := by
      rw [hE]
    obtain ⟨h1, h2⟩ := version_monotonic none none (("1.1.5").data) [] 1 1 5 r.1 r.2
      (by decide) (by decide) (by intro du hdu; cases hdu) hr
    simp [Option.map, h1, h2, DEVICES_FILE_MAJOR, DEVICES_FILE_MINOR]

/-- C9 counterexample: a non-comment, non-header line lacking `IDTYPE` (and
`IDNAME`) produces no use-entry, but — contrary to the claim that it is
"skipped with a warning" — the reader emits no warning at all for it: the
warning count stays zero. -/
theorem read_skip_counterexample :
    (read_lines none [("DEVNAME=/dev/sda PVID=4aa6e1aa").data]).entries = [] ∧
    (read_lines none [("DEVNAME=/dev/sda PVID=4aa6e1aa").data]).warns = 0 := by
  decide

/-- C9 amended: every non-comment, non-header line in which `strstr` finds
no `IDTYPE` key or no `IDNAME` key produces no use-entry and is skipped
silently — the read state, including the warning count, is unchanged. -/
theorem read_line_skip_no_warn (lsid : Option (List Char)) (acc : ReadAcc) (line : List Char)
    (h1 : line.head? ≠ some ('#'))
    (h2 : ("SYSTEMID").data.isPrefixOf line = false)
    (h3 : ("VERSION").data.isPrefixOf line = false)
    (h4 : strstr line keyIDTYPE = none ∨ strstr line keyIDNAME = none) :
    read_line lsid acc line = acc := by
  have hpn : parse_entry_line line = none := by
    rcases h4 with h4 | h4
    · cases hE2 : strstr line keyIDNAME with
      | none => simp only [parse_entry_line, h4, hE2]
      | some v => simp only [parse_entry_line, h4, hE2]
    · cases hE1 : strstr line keyIDTYPE with
      | none => simp only [parse_entry_line, hE1, h4]
      | some v => simp only [parse_entry_line, hE1, h4]
  unfold read_line
  rw [if_neg h1, if_neg (by simp [h2]), if_neg (by simp [h3]), hpn]

/-- C9 witness: the amended statement applied to a concrete headerless line
lacking `IDTYPE`. -/
theorem read_line_skip_no_warn_witness :
    read_line none ⟨[], [], [], 0⟩ (("DEVNAME=/dev/sdb PVID=77aabb11").data) =
      (⟨[], [], [], 0⟩ : ReadAcc) :=
  read_line_skip_no_warn none ⟨[], [], [], 0⟩ _ (by decide) (by decide) (by decide)
    (Or.inl (by decide))

/-- A cached device identity (`struct dev_id`): an `idname` of `none` with a
set `idtype` is the recorded negative ("this kind was checked and is not
available here"). -/
structure DevId where
  idtype : Nat
  idname : Option (List Char)
  deriving DecidableEq, Repr

/-- A device record (`struct device`) with the fields the matcher and
validator touch: `devname` is `dev_name(dev)` (the first alias),
`hasAliases` is the negation of `dm_list_empty(&dev->aliases)`, `part` is
the `dev_get_partition_number` result (`none` = failure), `ids` the cached
identity list, `id` the active identity, `matchedFlag` the
`DEV_MATCHED_USE_ID` bit, `pvid` the PVID read by label scan (`none` for an
empty `dev->pvid`), and `scanNotRead` the `DEV_SCAN_NOT_READ` bit. -/
structure Device where
  major : Nat
  minor : Nat
  devname : List Char
  hasAliases : Bool
  part : Option Nat
  ids : List DevId
  id : Option DevId
  matchedFlag : Bool
  pvid : Option (List Char)
  scanNotRead : Bool
  deriving DecidableEq, Repr

/-- The major numbers of `cmd->dev_types` consulted by the matcher. -/
structure DevTypes where
  device_mapper_major : Nat
  md_major : Nat
  loop_major : Nat
  deriving DecidableEq, Repr

/-- The host environment: `sysRead maj min idtype` abstracts what
`device_id_system_read` obtains from sysfs for a non-devname type (the
per-type sysfs paths, the QEMU-wwid filter and the whitespace-to-underscore
rewrite act on sysfs content and are folded into this function);
`statRdev path` abstracts `stat(path).st_rdev` as a (major, minor) pair,
`none` meaning the stat fails. -/
structure SysEnv where
  sysRead : Nat → Nat → Nat → Option (List Char)
  statRdev : List Char → Option (Nat × Nat)

/-- `device_id_system_read`: for `DEV_ID_TYPE_DEVNAME` the identity is the
device's name when it has aliases; every other type reads the environment. -/
def device_id_system_read (env : SysEnv) (dev : Device) (idtype : Nat) :
    Option (List Char) :=
  if idtype = DEV_ID_TYPE_DEVNAME then
    if dev.hasAliases then some dev.devname else none
  else env.sysRead dev.major dev.minor idtype

/-- `_idtype_compatible_with_major_number`. -/
def idtype_compatible_with_major (dt : DevTypes) (idtype major : Nat) : Bool :=
  if idtype = DEV_ID_TYPE_DEVNAME then true
  else if idtype = DEV_ID_TYPE_MPATH_UUID ∨ idtype = DEV_ID_TYPE_CRYPT_UUID ∨
      idtype = DEV_ID_TYPE_LVMLV_UUID then
    major == dt.device_mapper_major
  else if idtype = DEV_ID_TYPE_MD_UUID then major == dt.md_major
  else if idtype = DEV_ID_TYPE_LOOP_FILE then major == dt.loop_major
  else if major = dt.device_mapper_major then
    (idtype == DEV_ID_TYPE_MPATH_UUID || idtype == DEV_ID_TYPE_CRYPT_UUID ||
     idtype == DEV_ID_TYPE_LVMLV_UUID || idtype == DEV_ID_TYPE_DEVNAME)
  else if major = dt.md_major then
    (idtype == DEV_ID_TYPE_MD_UUID || idtype == DEV_ID_TYPE_DEVNAME)
  else if major = dt.loop_major then
    (idtype == DEV_ID_TYPE_LOOP_FILE || idtype == DEV_ID_TYPE_DEVNAME)
  else true

/-- The path-stat test of `_match_dm_devnames`: the stored idname is a
`/dev/dm-` or `/dev/mapper/` path whose stat yields an rdev with the
device-mapper major and the candidate's minor. -/
def dm_stat_match (dt : DevTypes) (env : SysEnv) (b : List Char) (minor : Nat) : Bool :=
  if ("/dev/dm-").data.isPrefixOf b || ("/dev/mapper/").data.isPrefixOf b then
    match env.statRdev b with
    | none => false
    | some (ma, mi) => ma == dt.device_mapper_major && mi == minor
  else false

/-- `_match_dm_devnames`. -/
def match_dm_devnames (dt : DevTypes) (env : SysEnv) (dev : Device) (id : DevId)
    (du : DevUse) : Bool :=
  if dev.major ≠ dt.device_mapper_major then false
  else if (match id.idname, du.idname with
           | some a, some b => a == b
           | _, _ => false) then true
  else if (match du.idname with
           | some b => b == dev.devname
           | none => false) then true
  else
    match du.idname with
    | none => false
    | some b => dm_stat_match dt env b dev.minor

/-- `_match_du_to_dev`: compatibility and partition checks, then the cached
`dev->ids` entry of the entry's type if present (with the dm-devnames rule
for the devname type), else a `device_id_system_read` whose result — even a
negative — is appended to the cache.  Returns the match outcome and the
updated device record (`du->dev` is represented by the boolean). -/
def match_du_to_dev (dt : DevTypes) (env : SysEnv) (du : DevUse) (dev : Device) :
    Bool × Device :=
  if du.idname = none ∨ du.idtype = 0 then (false, dev)
  else if idtype_compatible_with_major dt du.idtype dev.major = false then (false, dev)
  else
    match dev.part with
    | none => (false, dev)
    | some part =>
      if part ≠ du.part then (false, dev)
      else
        match dev.ids.find? (fun id => id.idtype == du.idtype) with
        | some id =>
          if id.idtype == DEV_ID_TYPE_DEVNAME && match_dm_devnames dt env dev id du then
            (true, { dev with id := some id, matchedFlag := true })
          else if (match id.idname, du.idname with
                   | some a, some b => a == b
                   | _, _ => false) then
            (true, { dev with id := some id, matchedFlag := true })
          else (false, dev)
        | none =>
          match device_id_system_read env dev du.idtype with
          | none => (false, { dev with ids := dev.ids ++ [⟨du.idtype, none⟩] })
          | some idname =>
            let newId : DevId := ⟨du.idtype, some idname⟩
            let dev2 := { dev with ids := dev.ids ++ [newId] }
            if (match du.idname with
                | some b => idname == b
                | none => false) then
              (true, { dev2 with id := some newId, matchedFlag := true })
            else (false, dev2)

/-- The device-mapper name-equivalence rule of spec §4.3: the candidate is
a device-mapper device and the stored idname path stats to an rdev with the
dm major and the candidate's minor. -/
def dm_name_equivalence (dt : DevTypes) (env : SysEnv) (du : DevUse) (dev : Device) : Bool :=
  (dev.major == dt.device_mapper_major) &&
  (match du.idname with
   | some b => dm_stat_match dt env b dev.minor
   | none => false)

/-- C2: the pairing predicate of the matcher.  For a use-entry with a type
and name, and a present device (it has aliases) whose identity cache
already holds a consistent entry of the use-entry's type (each cached id
records what `device_id_system_read` returns for its type),
`_match_du_to_dev` pairs them exactly when the type is compatible with the
device's major number, the partition indexes agree, and either the identity
of the entry's kind read from the device equals the entry's idname, or the
kind is devname and the device-mapper name-equivalence rule holds. -/
theorem match_pairing_iff (dt : DevTypes) (env : SysEnv) (du : DevUse) (dev : Device)
    (nm : List Char) (hnm : du.idname = some nm) (hty : du.idtype ≠ 0)
    (hal : dev.hasAliases = true)
    (hcons : ∀ id ∈ dev.ids, id.idname = device_id_system_read env dev id.idtype)
    (hpop : ∃ id ∈ dev.ids, id.idtype = du.idtype) :
    (match_du_to_dev dt env du dev).1 = true ↔
      (idtype_compatible_with_major dt du.idtype dev.major = true ∧
       dev.part = some du.part ∧
       (device_id_system_read env dev du.idtype = some nm ∨
        (du.idtype = DEV_ID_TYPE_DEVNAME ∧ dm_name_equivalence dt env du dev = true))) := by
  obtain ⟨id0, hid0mem, hid0ty⟩ := hpop
  have hfindS : (dev.ids.find? (fun id => id.idtype == du.idtype)).isSome := by
    rw [List.find?_isSome]
    exact ⟨id0, hid0mem, by simp [hid0ty]⟩
  obtain ⟨idc, hfind⟩ := Option.isSome_iff_exists.mp hfindS
  have hmemc : idc ∈ dev.ids := List.mem_of_find?_eq_some hfind
  have htyc : idc.idtype = du.idtype := by
    have := List.find?_some hfind
    simpa using this
  have hconsc := hcons idc hmemc
  obtain ⟨idct, idcn⟩ := idc
  simp only at htyc
  subst htyc
  by_cases hcompat : idtype_compatible_with_major dt du.idtype dev.major = false
  · simp [match_du_to_dev, hnm, hty, hcompat]
  · have hcompatT : idtype_compatible_with_major dt du.idtype dev.major = true := by
      cases hE : idtype_compatible_with_major dt du.idtype dev.major
      · exact absurd hE hcompat
      · rfl
    cases hpart : dev.part with
    | none => simp [match_du_to_dev, hnm, hty, hcompatT, hpart]
    | some pt =>
      by_cases hptne : pt ≠ du.part
      · simp [match_du_to_dev, hnm, hty, hcompatT, hpart, hptne]
      · have hpt : pt = du.part := by
          by_contra hc
          exact hptne hc
        subst hpt
        by_cases hdn : du.idtype = DEV_ID_TYPE_DEVNAME
        · have hsys : device_id_system_read env dev du.idtype = some dev.devname := by
            unfold device_id_system_read
            rw [if_pos hdn, if_pos hal]
          have hidc : idcn = some dev.devname := by
            simpa [hsys] using hconsc
          subst hidc
          rw [hdn] at hfind hsys hcompatT
          have htyD : DEV_ID_TYPE_DEVNAME ≠ 0 := by decide
          have hcompD : ∀ m, idtype_compatible_with_major dt DEV_ID_TYPE_DEVNAME m = true :=
            fun m => by simp [idtype_compatible_with_major]
          by_cases hdm : dev.major = dt.device_mapper_major
          · by_cases heqn : dev.devname = nm
            · simp [match_du_to_dev, match_dm_devnames, dm_name_equivalence, hnm, htyD,
                hcompD, hpart, hfind, hdn, hsys, heqn, hdm]
            · have hb2 : (nm == dev.devname) = false := by
                simp only [beq_eq_false_iff_ne]
                exact fun hc => heqn hc.symm
              simp [match_du_to_dev, match_dm_devnames, dm_name_equivalence, hnm, htyD,
                hcompD, hpart, hfind, hdn, hsys, hdm, heqn, hb2]
              cases hstat : dm_stat_match dt env nm dev.minor <;> simp [hstat]
          · have hdmB : (dev.major == dt.device_mapper_major) = false := by simpa using hdm
            simp [match_du_to_dev, match_dm_devnames, dm_name_equivalence, hnm, htyD,
              hcompD, hpart, hfind, hdn, hsys, hdm, hdmB]
            by_cases heq2 : dev.devname = nm <;> simp [heq2]
        · have hsys : device_id_system_read env dev du.idtype =
              env.sysRead dev.major dev.minor du.idtype := by
            unfold device_id_system_read
            rw [if_neg hdn]
          have hdnB : (du.idtype == DEV_ID_TYPE_DEVNAME) = false := by simpa using hdn
          cases hidc : idcn with
          | none =>
            have hread : env.sysRead dev.major dev.minor du.idtype = none := by
              rw [hidc] at hconsc
              rw [hsys] at hconsc
              exact hconsc.symm
            simp [match_du_to_dev, hnm, hty, hcompatT, hpart, hfind, hdn, hdnB, hsys,
              hread, hidc]
          | some a =>
            have hread : env.sysRead dev.major dev.minor du.idtype = some a := by
              rw [hidc] at hconsc
              rw [hsys] at hconsc
              exact hconsc.symm
            by_cases ha : a = nm
            · simp [match_du_to_dev, hnm, hty, hcompatT, hpart, hfind, hdn, hdnB, hsys,
                hread, hidc, ha]
            · simp [match_du_to_dev, hnm, hty, hcompatT, hpart, hfind, hdn, hdnB, hsys,
                hread, hidc, ha]

/-- A device-mapper table for the matcher witness. -/
def mpDt : DevTypes := ⟨253, 9, 7⟩

/-- An environment whose stat resolves `/dev/mapper/foo` to dm major 253,
minor 3. -/
def mpEnv : SysEnv :=
  ⟨fun _ _ _ => none,
   fun p => if p = ("/dev/mapper/foo").data then some (253, 3) else none⟩

/-- A devname-kind use-entry naming `/dev/mapper/foo`. -/
def mpDu : DevUse :=
  ⟨DEV_ID_TYPE_DEVNAME, some (("/dev/mapper/foo").data), some (("/dev/dm-3").data),
   none, 0⟩

/-- A dm device currently named `/dev/dm-3`, with a consistent cached
devname identity. -/
def mpDev : Device :=
  ⟨253, 3, ("/dev/dm-3").data, true, some 0,
   [⟨DEV_ID_TYPE_DEVNAME, some (("/dev/dm-3").data)⟩], none, false, none, false⟩

/-- Witness for `match_pairing_iff`: the entry `/dev/mapper/foo` pairs with
the device named `/dev/dm-3` through the dm name-equivalence rule. -/
theorem match_pairing_iff_witness :
    (match_du_to_dev mpDt mpEnv mpDu mpDev).1 = true :=
  (match_pairing_iff mpDt mpEnv mpDu mpDev (("/dev/mapper/foo").data)
      (by decide) (by decide) (by decide) (by decide) (by decide)).mpr
    (by decide)

/-- A use-entry as the validator sees it: the persistent fields plus the
`du->dev` pairing established by the matcher. -/
structure VDu where
  idtype : Nat
  idname : Option (List Char)
  devname : Option (List Char)
  pvid : Option (List Char)
  dev : Option Device
  deriving DecidableEq, Repr

/-- The outcome of one iteration of the devname-validation loop of
`device_ids_validate` on one entry: the updated entry and device, whether
the device was recorded on `wrong_devs`, whether `update_file` was set,
whether `*device_ids_invalid` was set, and whether the idname-mismatch
`log_error` fired. -/
structure ValidateOut where
  du : VDu
  dev : Device
  wrongDev : Bool
  updateFile : Bool
  invalid : Bool
  errIdname : Bool
  deriving DecidableEq, Repr

/-- One iteration of the second loop of `device_ids_validate`
(vgextend.c:1912-2018) on entry `du`.  `sg` is whether a `scanned_devs`
list was supplied, `sc` whether the paired device is on it, `fp` the
downstream filter verdict.  A skipped entry returns everything unchanged
with all flags clear. -/
def validate_devname_entry (sg sc fp : Bool) (du : VDu) : ValidateOut :=
  match du.dev with
  | none => ⟨du, ⟨0, 0, [], false, none, [], none, false, none, false⟩,
             false, false, false, false⟩
  | some dev =>
    if du.idtype ≠ DEV_ID_TYPE_DEVNAME then ⟨du, dev, false, false, false, false⟩
    else if sg && !sc then ⟨du, dev, false, false, false, false⟩
    else if dev.scanNotRead then ⟨du, dev, false, false, false, false⟩
    else if !dev.hasAliases then ⟨du, dev, false, false, false, false⟩
    else if !fp then ⟨du, dev, false, false, false, false⟩
    else
      match du.pvid with
      | none => ⟨du, dev, false, false, false, false⟩
      | some p =>
        if p.head? = some ('.') then ⟨du, dev, false, false, false, false⟩
        else
          match dev.pvid with
          | some dp =>
            if dp = p then
              if du.idname ≠ some dev.devname then
                ⟨du, dev, false, false, true, true⟩
              else if du.devname ≠ some dev.devname then
                ⟨{ du with devname := some dev.devname }, dev, false, true, true, false⟩
              else ⟨du, dev, false, false, false, false⟩
            else
              ⟨{ du with idname := none, dev := none },
               { dev with matchedFlag := false, id := none },
               true, true, true, false⟩
          | none =>
            ⟨{ du with idname := none, dev := none },
             { dev with matchedFlag := false, id := none },
             true, true, true, false⟩

/-- The device of the C3 counterexample: currently named `/dev/sdb`,
carrying PVID `P111`. -/
def c3dev : Device :=
  ⟨8, 16, ("/dev/sdb").data, true, some 0, [], none, true,
   some (("P111").data), false⟩

/-- The entry of the C3 counterexample: devname kind, idname and devname
`/dev/sda`, PVID `P111`, paired to `c3dev`. -/
def c3du : VDu :=
  ⟨DEV_ID_TYPE_DEVNAME, some (("/dev/sda").data), some (("/dev/sda").data),
   some (("P111").data), some c3dev⟩

/-- Counterexample to C3 as stated: the device's on-disk PVID equals the
entry's PVID, yet the entry's devname is not updated to the device's
current name — the idname-mismatch error branch (vgextend.c:1956-1962)
leaves the entry untouched. -/
theorem validate_devname_counterexample :
    c3dev.pvid = c3du.pvid ∧
    (validate_devname_entry true true true c3du).du.dev = some c3dev ∧
    (validate_devname_entry true true true c3du).du.devname ≠ some c3dev.devname := by
  decide

/-- C3 (amended): for a paired devname-kind entry that was scanned, read,
has aliases, passes the filter and has a real PVID: when the device's
on-disk PVID equals the entry's PVID, then if the entry's idname equals the
device's current name the entry stays matched and its devname is set to
that name (dirtying the registry only if it differed), while an idname
mismatch only raises the invalid flag and changes nothing; when the PVIDs
differ the entry is unmatched — dev link and idname cleared, the device's
matched flag cleared, the device recorded for drop — its devname kept, and
the registry marked dirty. -/
theorem validate_devname_spec (sg sc fp : Bool) (du : VDu) (dev : Device)
    (hdev : du.dev = some dev) (hty : du.idtype = DEV_ID_TYPE_DEVNAME)
    (hsc : sg = true → sc = true) (hnr : dev.scanNotRead = false)
    (hal : dev.hasAliases = true) (hfp : fp = true)
    (p : List Char) (hp : du.pvid = some p) (hpd : p.head? ≠ some ('.')) :
    (dev.pvid = some p →
      ((du.idname = some dev.devname →
        validate_devname_entry sg sc fp du =
          (if du.devname ≠ some dev.devname then
            ⟨{ du with devname := some dev.devname }, dev, false, true, true, false⟩
           else ⟨du, dev, false, false, false, false⟩)) ∧
       (du.idname ≠ some dev.devname →
        validate_devname_entry sg sc fp du = ⟨du, dev, false, false, true, true⟩))) ∧
    (dev.pvid ≠ some p →
      validate_devname_entry sg sc fp du =
        ⟨{ du with idname := none, dev := none },
         { dev with matchedFlag := false, id := none }, true, true, true, false⟩) := by
  have hsgsc : (sg && !sc) = false := by
    cases sg with
    | false => rfl
    | true => simp [hsc rfl]
  constructor
  · intro hdp
    constructor
    · intro hin
      simp [validate_devname_entry, hdev, hty, hsgsc, hnr, hal, hfp, hp, hpd, hdp, hin]
    · intro hin
      simp [validate_devname_entry, hdev, hty, hsgsc, hnr, hal, hfp, hp, hpd, hdp, hin]
  · intro hdp
    cases hcase : dev.pvid with
    | none =>
      simp [validate_devname_entry, hdev, hty, hsgsc, hnr, hal, hfp, hp, hpd, hcase]
    | some dp =>
      have hdp2 : ¬(dp = p) := by
        intro h
        exact hdp (by rw [hcase, h])
      simp [validate_devname_entry, hdev, hty, hsgsc, hnr, hal, hfp, hp, hpd, hcase, hdp2]

/-- The device of the C3 witness: named `/dev/sdc`, PVID `P222`. -/
def vwDev : Device :=
  ⟨8, 32, ("/dev/sdc").data, true, some 0, [], none, true,
   some (("P222").data), false⟩

/-- The entry of the C3 witness: devname kind, names `/dev/sdc`, but PVID
`P333` — an incorrect pairing. -/
def vwDu : VDu :=
  ⟨DEV_ID_TYPE_DEVNAME, some (("/dev/sdc").data), some (("/dev/sdc").data),
   some (("P333").data), some vwDev⟩

/-- Witness for `validate_devname_spec`: the mismatched pairing is undone —
idname and dev link cleared, matched flag cleared, device recorded for
drop, devname kept, registry dirtied. -/
theorem validate_devname_spec_witness :
    validate_devname_entry true true true vwDu =
      ⟨{ vwDu with idname := none, dev := none },
       { vwDev with matchedFlag := false, id := none }, true, true, true, false⟩ :=
  (validate_devname_spec true true true vwDu vwDev rfl rfl (fun _ => rfl) rfl rfl rfl
      (("P333").data) rfl (by decide)).2 (by decide)

/-- A `struct device_id_list` entry on `search_pvids`: a wanted PVID and
the device it has been found on so far. -/
structure Dil where
  pvid : List Char
  dev : Option Device
  deriving DecidableEq, Repr

/-- A duplicate-PVID warning of the rename search: the PVID and the two
device names printed by the `log_warn` at vgextend.c:2289-2290. -/
abbrev RWarn : Type := List Char × List Char × List Char

/-- The inner `dm_list_iterate_items_safe` loop of
`device_ids_find_renamed_devs` (vgextend.c:2286-2301) for one scanned
device whose label read produced PVID `dp`: a search entry already holding
a device warns and is deleted; an empty one records the device. -/
def scan_dils (dp : List Char) (dev : Device) : List Dil → List Dil × List RWarn
  | [] => ([], [])
  | dil :: rest =>
    if dil.pvid = dp then
      match dil.dev with
      | some d1 =>
        let pr := scan_dils dp dev rest
        (pr.1, ((dil.pvid, d1.devname, dev.devname) : RWarn) :: pr.2)
      | none =>
        let pr := scan_dils dp dev rest
        ({ dil with dev := some dev } :: pr.1, pr.2)
    else
      let pr := scan_dils dp dev rest
      (dil :: pr.1, pr.2)

/-- One scanned device of the search loop: a device whose label read found
no PVID skips the search entries entirely. -/
def scan_dev (dev : Device) (dils : List Dil) : List Dil × List RWarn :=
  match dev.pvid with
  | none => (dils, [])
  | some dp => scan_dils dp dev dils

/-- One step of the fold over `search_devs`, accumulating the warnings. -/
def search_step (acc : List Dil × List RWarn) (dev : Device) : List Dil × List RWarn :=
  ((scan_dev dev acc.1).1, acc.2 ++ (scan_dev dev acc.1).2)

/-- The search over the scanned devices (vgextend.c:2219-2304), restricted
to the PVID bookkeeping: final `search_pvids` list and emitted
duplicate-PVID warnings. -/
def search_scan (devs : List Device) (dils : List Dil) : List Dil × List RWarn :=
  devs.foldl search_step (dils, [])

/-- `get_du_for_pvid` followed by the IDNAME update of the rematch loop
(vgextend.c:2330-2369): the first entry with the wanted PVID, if of devname
kind, is re-paired to the found device. -/
def update_du_for_pvid (dus : List VDu) (pvid : List Char) (dev : Device) : List VDu :=
  match dus with
  | [] => []
  | du :: rest =>
    if du.pvid = some pvid then
      if du.idtype = DEV_ID_TYPE_DEVNAME then
        { du with
          idname := some dev.devname
          devname := some dev.devname
          dev := some { dev with
            id := some ⟨DEV_ID_TYPE_DEVNAME, some dev.devname⟩
            matchedFlag := true
            ids := [⟨DEV_ID_TYPE_DEVNAME, some dev.devname⟩] } } :: rest
      else du :: rest
    else du :: update_du_for_pvid rest pvid dev

/-- The rematch loop (vgextend.c:2318-2370): every surviving search entry
holding a device with aliases re-pairs the entry for its PVID. -/
def rename_rematch (dils : List Dil) (dus : List VDu) : List VDu :=
  dils.foldl (fun acc dil =>
    match dil.dev with
    | none => acc
    | some dev => if dev.hasAliases then update_du_for_pvid acc dil.pvid dev else acc) dus

/-- A device with no PVID, or with one, leaves an empty search list empty. -/
theorem scan_dev_nil (dev : Device) : scan_dev dev [] = ([], []) := by
  cases h : dev.pvid <;> simp [scan_dev, scan_dils, h]

/-- Once the search list is empty, the remaining devices change nothing. -/
theorem foldl_nil_dils (devs : List Device) :
    ∀ w : List RWarn, devs.foldl search_step ([], w) = ([], w) := by
  induction devs with
  | nil => intro w; rfl
  | cons d t ih =>
    intro w
    rw [List.foldl_cons]
    have h1 : search_step ([], w) d = ([], w) := by
      simp [search_step, scan_dev_nil]
    rw [h1]
    exact ih w

/-- From the armed state (the single search entry already holds `e1`), the
next device carrying the wanted PVID triggers the duplicate warning naming
`e1` and that device, and deletes the entry; nothing further happens. -/
theorem armed_dup (P : List Char) (e1 e2 : Device) (rest : List Device) :
    ∀ (devs : List Device) (w : List RWarn),
      devs.filter (fun d => d.pvid == some P) = e2 :: rest →
      devs.foldl search_step ([⟨P, some e1⟩], w) =
        ([], w ++ [((P, e1.devname, e2.devname) : RWarn)]) := by
  intro devs
  induction devs with
  | nil => intro w h; simp at h
  | cons d t ih =>
    intro w hfil
    rw [List.foldl_cons]
    by_cases hd : d.pvid = some P
    · have hbeq : (d.pvid == some P) = true := by simp [hd]
      simp only [List.filter_cons, hbeq, if_true] at hfil
      injection hfil with h1 h2
      subst h1
      have hstep : search_step ([(⟨P, some e1⟩ : Dil)], w) d =
          ([], w ++ [((P, e1.devname, d.devname) : RWarn)]) := by
        simp [search_step, scan_dev, hd, scan_dils]
      rw [hstep]
      exact foldl_nil_dils t _
    · have hbeq : (d.pvid == some P) = false := by simp [hd]
      simp only [List.filter_cons, hbeq] at hfil
      have hstep : search_step ([(⟨P, some e1⟩ : Dil)], w) d =
          ([(⟨P, some e1⟩ : Dil)], w) := by
        cases hdp : d.pvid with
        | none => simp [search_step, scan_dev, hdp]
        | some dp =>
          have hne : ¬(P = dp) := fun h => hd (by rw [hdp, h])
          simp [search_step, scan_dev, hdp, scan_dils, hne]
      rw [hstep]
      exact ih w hfil

/-- First device of the C7 counterexample, PVID `P777`. -/
def rdA : Device :=
  ⟨8, 0, ("/dev/sdx").data, true, some 0, [], none, false, some (("P777").data), false⟩

/-- Second device of the C7 counterexample, the same PVID `P777`. -/
def rdB : Device :=
  ⟨8, 16, ("/dev/sdy").data, true, some 0, [], none, false, some (("P777").data), false⟩

/-- Third device of the C7 counterexample, again PVID `P777`. -/
def rdC : Device :=
  ⟨8, 32, ("/dev/sdz").data, true, some 0, [], none, false, some (("P777").data), false⟩

/-- Counterexample to C7 as stated: three devices carry the wanted PVID,
but the emitted warning names only the first two — the search entry is
deleted at the second hit (vgextend.c:2293), so the third duplicate is
never named in any warning. -/
theorem rename_duplicate_counterexample :
    rdC.pvid = some (("P777").data) ∧
    (search_scan [rdA, rdB, rdC] [⟨("P777").data, none⟩]).2 =
      [((("P777").data, rdA.devname, rdB.devname) : RWarn)] ∧
    ((search_scan [rdA, rdB, rdC] [⟨("P777").data, none⟩]).2.all
      (fun w => !(w.2.1 == rdC.devname) && !(w.2.2 == rdC.devname))) = true := by
  decide

/-- C7 (amended): when the devices carrying a wanted PVID are
`e1 :: e2 :: rest` (two or more), the rename search deletes the search
entry for that PVID at the second hit, so no surviving entry holds a
device and the rematch loop re-pairs nothing; exactly one warning is
emitted, and it names only the first two devices — any further duplicates
are not named. -/
theorem rename_duplicate_spec (P : List Char) (devs : List Device)
    (e1 e2 : Device) (rest : List Device)
    (hfil : devs.filter (fun d => d.pvid == some P) = e1 :: e2 :: rest) :
    (search_scan devs [⟨P, none⟩]).1 = [] ∧
    (search_scan devs [⟨P, none⟩]).2 = [((P, e1.devname, e2.devname) : RWarn)] ∧
    (∀ dus : List VDu, rename_rematch (search_scan devs [⟨P, none⟩]).1 dus = dus) := by
  have key : ∀ (ds : List Device),
      ds.filter (fun d => d.pvid == some P) = e1 :: e2 :: rest →
      ds.foldl search_step ([⟨P, none⟩], []) =
        ([], [((P, e1.devname, e2.devname) : RWarn)]) := by
    intro ds
    induction ds with
    | nil => intro h; simp at h
    | cons d t ih =>
      intro hf
      rw [List.foldl_cons]
      by_cases hd : d.pvid = some P
      · have hbeq : (d.pvid == some P) = true := by simp [hd]
        simp only [List.filter_cons, hbeq, if_true] at hf
        injection hf with h1 h2
        subst h1
        have hstep : search_step ([(⟨P, none⟩ : Dil)], []) d =
            ([(⟨P, some d⟩ : Dil)], []) := by
          simp [search_step, scan_dev, hd, scan_dils]
        rw [hstep]
        exact armed_dup P d e2 rest t [] h2
      · have hbeq : (d.pvid == some P) = false := by simp [hd]
        simp only [List.filter_cons, hbeq] at hf
        have hstep : search_step ([(⟨P, none⟩ : Dil)], []) d =
            ([(⟨P, none⟩ : Dil)], []) := by
          cases hdp : d.pvid with
          | none => simp [search_step, scan_dev, hdp]
          | some dp =>
            have hne : ¬(P = dp) := fun h => hd (by rw [hdp, h])
            simp [search_step, scan_dev, hdp, scan_dils, hne]
        rw [hstep]
        exact ih hf
  have hmain := key devs hfil
  unfold search_scan
  rw [hmain]
  exact ⟨rfl, rfl, fun dus => rfl⟩

/-- Witness for `rename_duplicate_spec`: the three `P777` devices of the
counterexample configuration — the warning names the first two and the
rematch loop leaves the registry alone. -/
theorem rename_duplicate_spec_witness :
    (search_scan [rdA, rdB, rdC] [⟨("P777").data, none⟩]).1 = [] ∧
    (search_scan [rdA, rdB, rdC] [⟨("P777").data, none⟩]).2 =
      [((("P777").data, rdA.devname, rdB.devname) : RWarn)] ∧
    rename_rematch (search_scan [rdA, rdB, rdC] [⟨("P777").data, none⟩]).1
      [⟨DEV_ID_TYPE_DEVNAME, none, some (("/dev/sde").data), some (("P777").data), none⟩] =
      [⟨DEV_ID_TYPE_DEVNAME, none, some (("/dev/sde").data), some (("P777").data), none⟩] := by
  have h := rename_duplicate_spec (("P777").data) [rdA, rdB, rdC] rdA rdB [rdC] (by decide)
  exact ⟨h.1, h.2.1, h.2.2 _⟩

/-- C `isspace` for the characters that can occur in a config line. -/
def isSpaceC (c : Char) : Bool :=
  c == (' ') || c == ('\t') || c == ('\n') || c == ('\x0b') || c == ('\x0c') ||
  c == ('\r')

/-- The wwid copy loop of `_read_blacklist_file` (dev-mpath.c:120-143):
stop at newline or NUL; skip whitespace before the first copied character,
stop at whitespace after it; a first double quote opens, a second closes;
the first character equal to `3` — wherever it occurs — is skipped; every
other character is copied.  `fq`, `f3` are `found_quote`, `found_three`;
`acc` holds the copied characters in reverse. -/
def copy_wwid : List Char → Bool → Bool → List Char → List Char
  | [], _, _, acc => acc.reverse
  | c :: rest, fq, f3, acc =>
    if (c == ('\n')) || (c.toNat == 0) then acc.reverse
    else if acc.isEmpty && isSpaceC c then copy_wwid rest fq f3 acc
    else if isSpaceC c then acc.reverse
    else if (c == ('"')) && !fq then copy_wwid rest true f3 acc
    else if (c == ('"')) && fq then acc.reverse
    else if (c == ('3')) && !f3 then copy_wwid rest fq true acc
    else copy_wwid rest fq f3 (c :: acc)

/-- The value extraction after the `wwid` keyword, with the `j < 8`
discard (dev-mpath.c:145). -/
def parse_wwid_value (l : List Char) : Option (List Char) :=
  if (copy_wwid l false false []).length < 8 then none
  else some (copy_wwid l false false [])

/-- The accumulator of `_read_blacklist_file`: the two section flags and
the two collected wwid lists. -/
structure BlAcc where
  sectionBlack : Bool
  sectionExceptions : Bool
  ignored : List (List Char)
  ignoredExceptions : List (List Char)
  deriving DecidableEq, Repr

/-- One line of `_read_blacklist_file` (dev-mpath.c:63-158): skip leading
whitespace and comments; a line with `\x7b` opens a section when it starts
with `blacklist_exceptions` or `blacklist`; a line with `\x7d` closes the
sections; inside a section, a line containing `wwid` has its value copied
starting four characters past the start of the word and recorded in the
section's list when at least eight characters were copied. -/
def read_blacklist_line (acc : BlAcc) (line : List Char) : BlAcc :=
  match line.dropWhile isSpaceC with
  | [] => acc
  | c :: w =>
    if c == ('#') then acc
    else if (strchrSuffix (c :: w) ('\x7b')).isSome then
      if ("blacklist_exceptions").data.isPrefixOf (c :: w) then
        { acc with sectionExceptions := true }
      else if ("blacklist").data.isPrefixOf (c :: w) then
        { acc with sectionBlack := true }
      else acc
    else if (strchrSuffix (c :: w) ('\x7d')).isSome then
      { acc with
        sectionExceptions := false
        sectionBlack := false }
    else if !acc.sectionBlack && !acc.sectionExceptions then acc
    else
      match strstr (c :: w) (("wwid").data) with
      | none => acc
      | some _ =>
        match parse_wwid_value ((c :: w).drop 4) with
        | none => acc
        | some wv =>
          if acc.sectionExceptions then
            { acc with ignoredExceptions := acc.ignoredExceptions ++ [wv] }
          else
            { acc with ignored := acc.ignored ++ [wv] }

/-- `_read_blacklist_file` over the (newline-free) lines of one file. -/
def read_blacklist_lines (lines : List (List Char)) : BlAcc :=
  lines.foldl read_blacklist_line ⟨false, false, [], []⟩

/-- The removal passes of `_read_wwid_exclusions` (dev-mpath.c:184-196):
wwids on the ignored list and not on the exceptions list are removed from
the multipath wwid set. -/
def read_wwid_exclusions (wwids ignored exc : List (List Char)) : List (List Char) :=
  wwids.filter (fun x => !((ignored.filter (fun y => !(exc.contains y))).contains x))

/-- The spec's description of the stripping: the first `3` of the value is
removed. -/
def removeFirstThree : List Char → List Char
  | [] => []
  | c :: rest => if c == ('3') then rest else c :: removeFirstThree rest

/-- After the first `3` has been seen, the copy loop copies a clean value
verbatim to the end of the line. -/
theorem copy_wwid_all (fq : Bool) : ∀ (v acc : List Char),
    (∀ c ∈ v, (c == ('\n')) = false ∧ (c.toNat == 0) = false ∧
      isSpaceC c = false ∧ (c == ('"')) = false) →
    copy_wwid v fq true acc = acc.reverse ++ v := by
  intro v
  induction v with
  | nil => intro acc h; simp [copy_wwid]
  | cons c rest ih =>
    intro acc h
    obtain ⟨hn, h0, hs, hq⟩ := h c (List.mem_cons_self c rest)
    have hrest := fun x hx => h x (List.mem_cons_of_mem c hx)
    simp [copy_wwid, hn, h0, hs, hq, ih (c :: acc) hrest]

/-- Before any `3` has been seen, the copy loop copies a clean value with
its first `3` removed. -/
theorem copy_wwid_clean (fq : Bool) : ∀ (v acc : List Char),
    (∀ c ∈ v, (c == ('\n')) = false ∧ (c.toNat == 0) = false ∧
      isSpaceC c = false ∧ (c == ('"')) = false) →
    copy_wwid v fq false acc = acc.reverse ++ removeFirstThree v := by
  intro v
  induction v with
  | nil => intro acc h; simp [copy_wwid, removeFirstThree]
  | cons c rest ih =>
    intro acc h
    obtain ⟨hn, h0, hs, hq⟩ := h c (List.mem_cons_self c rest)
    have hrest := fun x hx => h x (List.mem_cons_of_mem c hx)
    cases h3 : (c == ('3')) with
    | true =>
      simp [copy_wwid, hn, h0, hs, hq, h3, removeFirstThree,
        copy_wwid_all fq rest acc hrest]
    | false =>
      simp [copy_wwid, hn, h0, hs, hq, h3, removeFirstThree, ih (c :: acc) hrest]

/-- Leading whitespace before the first copied character is skipped. -/
theorem copy_wwid_skip_spaces : ∀ (ws l : List Char) (fq f3 : Bool),
    (∀ c ∈ ws, isSpaceC c = true ∧ (c == ('\n')) = false ∧ (c.toNat == 0) = false) →
    copy_wwid (ws ++ l) fq f3 [] = copy_wwid l fq f3 [] := by
  intro ws
  induction ws with
  | nil => intro l fq f3 h; rfl
  | cons s rest ih =>
    intro l fq f3 h
    obtain ⟨hs, hn, h0⟩ := h s (List.mem_cons_self s rest)
    have hrest := fun x hx => h x (List.mem_cons_of_mem s hx)
    simp [copy_wwid, hs, hn, h0, ih l fq f3 hrest]

/-- Inside quotes, after the first `3`: a clean value is copied verbatim up
to the closing quote. -/
theorem copy_wwid_all_q : ∀ (v t acc : List Char),
    (∀ c ∈ v, (c == ('\n')) = false ∧ (c.toNat == 0) = false ∧
      isSpaceC c = false ∧ (c == ('"')) = false) →
    copy_wwid (v ++ ('"') :: t) true true acc = acc.reverse ++ v := by
  intro v
  induction v with
  | nil => intro t acc h; simp [copy_wwid, isSpaceC]
  | cons c rest ih =>
    intro t acc h
    obtain ⟨hn, h0, hs, hq⟩ := h c (List.mem_cons_self c rest)
    have hrest := fun x hx => h x (List.mem_cons_of_mem c hx)
    simp [copy_wwid, hn, h0, hs, hq, ih t (c :: acc) hrest]

/-- Inside quotes, before any `3`: a clean value is copied with its first
`3` removed, up to the closing quote. -/
theorem copy_wwid_clean_q : ∀ (v t acc : List Char),
    (∀ c ∈ v, (c == ('\n')) = false ∧ (c.toNat == 0) = false ∧
      isSpaceC c = false ∧ (c == ('"')) = false) →
    copy_wwid (v ++ ('"') :: t) true false acc = acc.reverse ++ removeFirstThree v := by
  intro v
  induction v with
  | nil => intro t acc h; simp [copy_wwid, isSpaceC, removeFirstThree]
  | cons c rest ih =>
    intro t acc h
    obtain ⟨hn, h0, hs, hq⟩ := h c (List.mem_cons_self c rest)
    have hrest := fun x hx => h x (List.mem_cons_of_mem c hx)
    cases h3 : (c == ('3')) with
    | true =>
      simp [copy_wwid, hn, h0, hs, hq, h3, removeFirstThree,
        copy_wwid_all_q rest t acc hrest]
    | false =>
      simp [copy_wwid, hn, h0, hs, hq, h3, removeFirstThree, ih t (c :: acc) hrest]

/-- Counterexample to C8 as stated: the value `abcdefg3h` has no leading
`3`, yet the `3` in its interior is stripped — the loop at
dev-mpath.c:136-139 skips the first `3` wherever it occurs, so the
recorded wwid is `abcdefgh` and the claimed value `abcdefg3h` is absent. -/
theorem blacklist_strip_counterexample :
    (read_blacklist_lines
      [("blacklist \x7b").data, ("wwid abcdefg3h").data, ("\x7d").data]).ignored =
      [("abcdefgh").data] ∧
    (("abcdefg3h").data) ∉
      (read_blacklist_lines
        [("blacklist \x7b").data, ("wwid abcdefg3h").data, ("\x7d").data]).ignored := by
  decide

/-- C8 (amended): for a wwid value free of whitespace, quotes, NUL and
newline, preceded by whitespace: the copy loop strips the FIRST `3` of the
value wherever it occurs (not only a leading one), with or without
surrounding double quotes, the value is kept only when at least eight
characters were copied, and a wwid on the exceptions list survives the
blacklist removal — it stays in the multipath wwid set exactly when it was
there. -/
theorem blacklist_wwid_spec (ws v t w : List Char)
    (wwids ignored exc : List (List Char))
    (hws : ∀ c ∈ ws, isSpaceC c = true ∧ (c == ('\n')) = false ∧ (c.toNat == 0) = false)
    (hv : ∀ c ∈ v, (c == ('\n')) = false ∧ (c.toNat == 0) = false ∧
      isSpaceC c = false ∧ (c == ('"')) = false)
    (hw : w ∈ exc) :
    copy_wwid (ws ++ v) false false [] = removeFirstThree v ∧
    copy_wwid (ws ++ (('"') :: (v ++ (('"') :: t)))) false false [] = removeFirstThree v ∧
    parse_wwid_value (ws ++ v) =
      (if (removeFirstThree v).length < 8 then none else some (removeFirstThree v)) ∧
    ((w ∈ read_wwid_exclusions wwids ignored exc) ↔ w ∈ wwids) := by
  have ha : copy_wwid (ws ++ v) false false [] = removeFirstThree v := by
    rw [copy_wwid_skip_spaces ws v false false hws]
    simpa using copy_wwid_clean false v [] hv
  have hb : copy_wwid (ws ++ (('"') :: (v ++ (('"') :: t)))) false false [] =
      removeFirstThree v := by
    rw [copy_wwid_skip_spaces ws (('"') :: (v ++ (('"') :: t))) false false hws]
    have hstep : copy_wwid (('"') :: (v ++ ('"') :: t)) false false [] =
        copy_wwid (v ++ ('"') :: t) true false [] := by
      simp [copy_wwid, isSpaceC]
    rw [hstep]
    simpa using copy_wwid_clean_q v t [] hv
  refine ⟨ha, hb, ?_, ?_⟩
  · simp [parse_wwid_value, ha]
  · constructor
    · intro h
      exact (List.mem_filter.mp h).1
    · intro h
      refine List.mem_filter.mpr ⟨h, ?_⟩
      cases hc : (ignored.filter (fun y => !(exc.contains y))).contains w with
      | false => rfl
      | true =>
        exfalso
        have hmem := List.elem_iff.mp hc
        have h2 : (!(exc.contains w)) = true := (List.mem_filter.mp hmem).2
        have h3 : exc.contains w = true := List.elem_iff.mpr hw
        rw [h3] at h2
        simp at h2

/-- Witness for `blacklist_wwid_spec`: the value `abcdefg3h`, plain and
quoted, yields `abcdefgh`, long enough to be kept; the wwid `wexc0001` on
the exceptions list stays in the wwid set. -/
theorem blacklist_wwid_spec_witness :
    copy_wwid ((" ").data ++ ("abcdefg3h").data) false false [] =
      removeFirstThree (("abcdefg3h").data) ∧
    copy_wwid ((" ").data ++ (('"') :: ((("abcdefg3h").data) ++ (('"') :: [])))) false false [] =
      removeFirstThree (("abcdefg3h").data) ∧
    parse_wwid_value ((" ").data ++ ("abcdefg3h").data) =
      (if (removeFirstThree (("abcdefg3h").data)).length < 8 then none
       else some (removeFirstThree (("abcdefg3h").data))) ∧
    (((("wexc0001").data) ∈
        read_wwid_exclusions [("wexc0001").data, ("other001").data]
          [("wexc0001").data] [("wexc0001").data]) ↔
      (("wexc0001").data) ∈ [("wexc0001").data, ("other001").data]) :=
  blacklist_wwid_spec ((" ").data) (("abcdefg3h").data) [] (("wexc0001").data)
    [("wexc0001").data, ("other001").data] [("wexc0001").data] [("wexc0001").data]
    (by decide) (by decide) (by decide)
